import Mathlib

/-!
Verification development for the kelp_ma_automation pipeline
(repository AI-ML-GC).  The definitions below are a shallow embedding of
the Python sources:

* agents/citation_verifier.py  (Citation, CitationVerifier)
* main.py                      (KelpPipeline._filter_verified)
* agents/content_writer.py     (ContentWriter._generate_slide_1, _anonymize)
* agents/data_extractor.py     (DataExtractor._parse_financial_row)
* agents/domain_classifier.py  (DOMAIN_KEYWORDS, _classify_with_keywords)

Modelling conventions:

* Python str is modelled by String / List Char; Python substring tests
  (the "in" operator) by an executable occurrence check.
* Python float is modelled by exact integer fractions; the one genuinely
  transcendental computation in the sources (the CAGR power
  (end/start) ** (1/n)) is modelled over the reals.  Python rounding in
  f-string format specifiers rounds the binary double half-to-even; it is
  modelled here by the half-up rounding of the exact value - at every
  number arising in this development the two agree (no tie occurs).
* Python dict[int, float] is modelled by association lists with unique
  keys; assignment keeps the position of an existing key and appends a
  new one, as CPython dicts do.
* Python code that can raise an uncaught exception is modelled in the
  Except monad: a ValueError escaping a function is an .error result.
-/

namespace KelpMA

/-- Python whitespace for str.strip and the regex class backslash-s:
space, tab, newline, carriage return, vertical tab, form feed. -/
def isPySpace (c : Char) : Bool :=
  c == ' ' || c == '\t' || c == '\n' || c == '\r' || c == '\x0b' || c == '\x0c'

/-- Model of Python str.strip with no arguments. -/
def pyStrip (s : String) : String :=
  String.mk (((s.toList.dropWhile isPySpace).reverse.dropWhile isPySpace).reverse)

/-- Lowercase every character; models str.lower on the ASCII texts the
pipeline handles. -/
def lowerStr (s : String) : String := String.mk (s.toList.map Char.toLower)

/-- Does pat occur as a prefix of l (character lists, exact match)? -/
def prefixAt : List Char → List Char → Bool
  | [], _ => true
  | _ :: _, [] => false
  | p :: ps, c :: cs => p == c && prefixAt ps cs

/-- Does pat occur as a contiguous substring of l?  Models the Python
expression pat in s on strings. -/
def subOccurs (pat : List Char) : List Char → Bool
  | [] => pat.isEmpty
  | c :: cs => prefixAt pat (c :: cs) || subOccurs pat cs

/-- Python expression pat in hay on str values. -/
def containsSub (hay pat : String) : Bool := subOccurs pat.toList hay.toList

/-- Case-insensitive occurrence; models re.search of a literal pattern
with the re.I flag. -/
def containsCI (hay pat : String) : Bool :=
  subOccurs (lowerStr pat).toList (lowerStr hay).toList

/-- Split a character list into maximal runs of non-whitespace; models
Python str.split with no arguments (no empty words). -/
def pyWordsAux (cur : List Char) : List Char → List (List Char)
  | [] => if cur.isEmpty then [] else [cur.reverse]
  | c :: cs =>
    if isPySpace c then
      if cur.isEmpty then pyWordsAux [] cs else cur.reverse :: pyWordsAux [] cs
    else pyWordsAux (c :: cur) cs

/-- Words of a string, Python str.split with no arguments. -/
def pyWords (l : List Char) : List (List Char) := pyWordsAux [] l

/-- Split at every occurrence of a separator character, keeping empty
pieces; models Python str.split(sep) for a one-character sep. -/
def splitOnCharAux (sep : Char) (cur : List Char) : List Char → List (List Char)
  | [] => [cur.reverse]
  | c :: cs =>
    if c == sep then cur.reverse :: splitOnCharAux sep [] cs
    else splitOnCharAux sep (c :: cur) cs

/-- Python str.split(sep) for a one-character separator. -/
def splitOnChar (sep : Char) (s : String) : List String :=
  (splitOnCharAux sep [] s.toList).map String.mk

/-- Split at the first occurrence of a separator character; models
Python str.split(sep, 1) when the separator occurs. -/
def splitFirst (sep : Char) : List Char → Option (List Char × List Char)
  | [] => none
  | c :: cs =>
    if c == sep then some ([], cs)
    else (splitFirst sep cs).map (fun p => (c :: p.1, p.2))

/-- Numeric value of a digit list (most significant first); no validity
check. -/
def natOfDigits (l : List Char) : Nat :=
  l.foldl (fun a c => a * 10 + (c.toNat - 48)) 0

/-- Parse a nonempty all-digit list. -/
def digitsToNat (l : List Char) : Option Nat :=
  if l.isEmpty then none
  else if l.all Char.isDigit then some (natOfDigits l) else none

/-- Model of Python int(s) on the strings this pipeline feeds it:
optional sign followed by digits, surrounding whitespace ignored.
(Underscore digit grouping, accepted by CPython, is not modelled; the
source documents never use it.) -/
def pyInt (s : String) : Option Int :=
  match (pyStrip s).toList with
  | '-' :: rest => (digitsToNat rest).map (fun n => -(n : Int))
  | '+' :: rest => (digitsToNat rest).map (fun n => (n : Int))
  | l => (digitsToNat l).map (fun n => (n : Int))

/-!  Exact fractions.  Python float values are modelled by exact
fractions of integers rather than by binary doubles; every numeric
observable of the sources (comparisons, tolerance tests, one-decimal
and two-decimal formatting) is computed from the fraction.  At the
magnitudes appearing in this development the double rounding error of
CPython never crosses a comparison or formatting boundary, so the
exact model and the double agree on every observable.  The denominator
of every fraction built below is positive.  -/

/-- An exact fraction; the model of a Python float value. -/
structure Frac where
  num : Int
  den : Int
deriving Repr, DecidableEq

/-- Embed an integer. -/
def Frac.ofInt (n : Int) : Frac := ⟨n, 1⟩

/-- Strict comparison by cross multiplication (positive denominators). -/
def Frac.lt (a b : Frac) : Bool := a.num * b.den < b.num * a.den

/-- Addition. -/
def Frac.add (a b : Frac) : Frac := ⟨a.num * b.den + b.num * a.den, a.den * b.den⟩

/-- Subtraction. -/
def Frac.sub (a b : Frac) : Frac := ⟨a.num * b.den - b.num * a.den, a.den * b.den⟩

/-- Multiplication. -/
def Frac.mul (a b : Frac) : Frac := ⟨a.num * b.num, a.den * b.den⟩

/-- Division, keeping the denominator positive. -/
def Frac.div (a b : Frac) : Frac :=
  if 0 ≤ b.num then ⟨a.num * b.den, a.den * b.num⟩
  else ⟨-(a.num * b.den), -(a.den * b.num)⟩

/-- Absolute value. -/
def Frac.abs (a : Frac) : Frac := ⟨|a.num|, a.den⟩

/-- Minimum. -/
def Frac.min (a b : Frac) : Frac := if Frac.lt b a then b else a

/-- Nearest integer, the model of the rounding done by the float
format specifiers (CPython rounds the double half-to-even; no value in
this development sits on a tie, where this half-up model could
differ). -/
def Frac.round (a : Frac) : Int := (2 * a.num + a.den).ediv (2 * a.den)

/-- The real value of a fraction (used only by the CAGR power). -/
noncomputable def Frac.toReal (a : Frac) : ℝ := (a.num : ℝ) / (a.den : ℝ)

/-- Model of Python float(s) on plain decimal literals: optional sign,
digits with at most one dot, at least one digit.  Exponent, inf and nan
forms are not modelled; the call sites parse texts matched by the regex
class [digits and dots] or financial-table cells, which are plain
decimals. -/
def pyFloat (s : String) : Option Frac :=
  let l := (pyStrip s).toList
  let sl : Int × List Char :=
    match l with
    | '-' :: r => (-1, r)
    | '+' :: r => (1, r)
    | r => (1, r)
  match splitFirst '.' sl.2 with
  | none =>
    (digitsToNat sl.2).map (fun n => Frac.ofInt (sl.1 * (n : Int)))
  | some (ip, fp) =>
    if fp.any (fun c => c == '.') then none
    else if ip.isEmpty && fp.isEmpty then none
    else if ip.all Char.isDigit && fp.all Char.isDigit then
      some ⟨sl.1 * ((natOfDigits ip : Int) * (10 : Int) ^ fp.length +
        (natOfDigits fp : Int)), (10 : Int) ^ fp.length⟩
    else none

/-- Left-pad with zeros to the requested width. -/
def padZeros (k : Nat) (s : String) : String :=
  String.mk (List.replicate (k - s.length) '0') ++ s

/-- Fixed-point rendering of an integer number of 10^(-decimals) units;
shared digit layout of the f-string format specifiers .1f and .2f. -/
def fixedOfInt (decimals : Nat) (n : Int) : String :=
  let p : Nat := 10 ^ decimals
  let sign : String := if n < 0 then "-" else ""
  let a : Nat := n.natAbs
  if decimals == 0 then sign ++ toString (a / p)
  else sign ++ toString (a / p) ++ "." ++ padZeros decimals (toString (a % p))

/-- Model of the Python format specifier .Nf on a fraction. -/
def fmtQ (decimals : Nat) (q : Frac) : String :=
  fixedOfInt decimals (Frac.round (Frac.mul q (Frac.ofInt ((10 : Int) ^ decimals))))

/-- Half-up nearest integer on the reals, the rounding model for the
one real-valued quantity of the sources (the CAGR; again no tie
occurs). -/
noncomputable def rRound (x : ℝ) : Int := ⌊x + 1 / 2⌋

/-- Model of the Python format specifier .1f on a real value. -/
noncomputable def fmtR1 (x : ℝ) : String := fixedOfInt 1 (rRound (x * 10))

/-- A year-indexed financial series, the model of the Python
dict[int, float] values stored under financials. -/
abbrev FinSeries := List (Int × Frac)

/-- Keys of a series in insertion order, model of dict.keys(). -/
def dkeys (d : FinSeries) : List Int := d.map Prod.fst

/-- Lookup, model of dict indexing / the in operator on dicts. -/
def dlookup (d : FinSeries) (k : Int) : Option Frac :=
  (d.find? (fun p => p.1 == k)).map Prod.snd

/-- Key-membership test, model of k in d. -/
def dmem (d : FinSeries) (k : Int) : Bool := (dlookup d k).isSome

/-- Lookup with default 0 for keys known to be present. -/
def dgetD (d : FinSeries) (k : Int) : Frac := (dlookup d k).getD (Frac.ofInt 0)

/-- Dict assignment d[k] = v: overwrite in place when the key exists,
append otherwise (CPython insertion-order semantics). -/
def dinsert (d : FinSeries) (k : Int) (v : Frac) : FinSeries :=
  if dmem d k then d.map (fun p => if p.1 == k then (k, v) else p)
  else d ++ [(k, v)]

/-- Insert into a sorted list of years. -/
def insertSorted (x : Int) : List Int → List Int
  | [] => [x]
  | y :: ys => if x ≤ y then x :: y :: ys else y :: insertSorted x ys

/-- Model of Python sorted() on the year keys. -/
def sortInts (l : List Int) : List Int := l.foldr insertSorted []

/-- Maximum of a list of years, model of Python max() on a nonempty
collection. -/
def maxIntList (l : List Int) : Int := l.foldl max (l.headD 0)

/-!  The Citation record of citation_verifier.py.  The original_value
field (typed Any in Python, only echoed into reports) is not modelled;
every other field is.  -/

/-- A verified citation with full source reference (dataclass Citation
of citation_verifier.py). -/
structure Citation where
  slide_num : Int
  claim : String
  verified : Bool
  source_type : String
  source_reference : String
  line_number : Option Nat := none
  line_content : Option String := none
deriving Repr, DecidableEq

/-- Market data inside web_data, as consulted by _verify_web_data.
Fields that Python tests for truthiness are Options whose none also
stands for a present-but-falsy value; sources is the list of
(source_name, source_url) pairs. -/
structure MarketData where
  india_market_size : Option String := none
  cagr : Option String := none
  key_drivers : List String := []
  sources : List (String × String) := []
deriving Repr, DecidableEq

/-- A scraped company page: entries of web_data company_info that carry
a content key (entries without one are skipped by the source and are
not modelled). -/
structure PageData where
  content : String
  url : Option String := none
deriving Repr, DecidableEq

/-- The web_data mapping; market_data is none when the dict is absent
or empty (Python truthiness test). -/
structure WebData where
  market_data : Option MarketData := none
  company_info : List (String × PageData) := []
deriving Repr, DecidableEq

/-- The verification sources held by a CitationVerifier after
set_sources: the one-pager lines, the two financial series from
extracted_data, the string-valued leaves of the flattened
extracted_data (the only leaves _verify_onepager consults, paired with
their flattened field names), and the web data. -/
structure VerifierState where
  md_lines : List String := []
  revenue : FinSeries := []
  ebitda : FinSeries := []
  extracted_fields : List (String × String) := []
  web : WebData := {}
deriving Repr, DecidableEq

/-!  _is_calculated_claim and _is_web_claim.  The five calculated
patterns are CAGR, Margin, digits-optional-fraction-percent-then-CAGR,
Revenue CAGR and EBITDA Margin, all searched case-insensitively; the
three literal ones are case-insensitive substring tests, and the
regex one gets an explicit matcher.  -/

/-- Drop a leading run of digits. -/
def skipDigits (l : List Char) : List Char := l.dropWhile Char.isDigit

/-- Match the pattern digits, optional (dot digits), percent, anything,
cagr at the head of an (already lowercased) character list.  Maximal
munch on the digit runs is exact here: the characters that may follow a
digit run in the pattern (dot, percent) are not digits, so the regex
backtracking of the Python original never helps. -/
def pctCagrAt : List Char → Bool
  | [] => false
  | c :: cs =>
    c.isDigit &&
      (let r := skipDigits cs
       let tailOk : List Char → Bool := fun t =>
         match t with
         | '%' :: rest => subOccurs ['c', 'a', 'g', 'r'] rest
         | _ => false
       let fracTail : Bool :=
         match r with
         | '.' :: d :: ds => d.isDigit && tailOk (skipDigits ds)
         | _ => false
       tailOk r || fracTail)

/-- Search the digits-percent-CAGR pattern at every position, the model
of re.search for it. -/
def searchPctCagr : List Char → Bool
  | [] => false
  | c :: cs => pctCagrAt (c :: cs) || searchPctCagr cs

/-- CitationVerifier._is_calculated_claim: any of the five patterns,
case-insensitively. -/
def is_calculated_claim (claim : String) : Bool :=
  let l := (lowerStr claim).toList
  subOccurs "cagr".toList l || subOccurs "margin".toList l ||
    searchPctCagr l || subOccurs "revenue cagr".toList l ||
    subOccurs "ebitda margin".toList l

/-- Match the pattern dollar, digits, anything, billion at the head of
an (already lowercased) character list.  The dot-star absorbs anything,
so the pattern holds iff the text after the first digit contains
billion; billion contains no digit, hence looking after the maximal
digit run is equivalent. -/
def dollarBillionAt : List Char → Bool
  | '$' :: c :: cs => c.isDigit && subOccurs "billion".toList (skipDigits cs)
  | _ => false

/-- Search the dollar-digits-billion pattern at every position. -/
def searchDollarBillion : List Char → Bool
  | [] => false
  | c :: cs => dollarBillionAt (c :: cs) || searchDollarBillion cs

/-- CitationVerifier._is_web_claim: the five web patterns,
case-insensitively. -/
def is_web_claim (claim : String) : Bool :=
  let l := (lowerStr claim).toList
  subOccurs "industry size".toList l || subOccurs "industry growth".toList l ||
    subOccurs "market size".toList l || searchDollarBillion l ||
    subOccurs "positioned for".toList l

/-!  The FY regex of _verify_calculated:
FY(two-to-four digits) lazy-dot-star optional-rupee (digits-and-dots)
whitespace-star Cr.  The matcher below reproduces the Python regex
semantics: leftmost starting position first; the year group greedy from
four digits down to two; the lazy dot-star tried shortest first; the
optional rupee sign, the amount run and the whitespace run taken
maximally, which is exact because the character that must follow each
of those runs can never extend the run itself.  -/

/-- A character of the amount group (digits and dots). -/
def amtChar (c : Char) : Bool := c.isDigit || c == '.'

/-- Try optional-rupee, amount, whitespace, Cr at this position; return
the amount characters on success. -/
def fyAmountAt (l : List Char) : Option (List Char) :=
  let l' := if l.headD ' ' == '₹' then l.tail else l
  let amt := l'.takeWhile amtChar
  if amt.isEmpty then none
  else
    match (l'.dropWhile amtChar).dropWhile isPySpace with
    | 'C' :: 'r' :: _ => some amt
    | _ => none

/-- The lazy dot-star: try the amount tail at every position, nearest
first. -/
def fyAmountSearch : List Char → Option (List Char)
  | [] => none
  | c :: cs =>
    match fyAmountAt (c :: cs) with
    | some a => some a
    | none => fyAmountSearch cs

/-- Greedy year group: try k digits for the year, then k-1, down to
two; rest is the text after the FY marker. -/
def tryYearK (rest : List Char) : Nat → Option (List Char × List Char)
  | 0 => none
  | 1 => none
  | Nat.succ (Nat.succ k') =>
    match fyAmountSearch (rest.drop (k' + 2)) with
    | some amt => some (rest.take (k' + 2), amt)
    | none => tryYearK rest (k' + 1)

/-- Match the whole FY pattern at this position: the year digits and
the amount characters. -/
def fyMatchAt : List Char → Option (List Char × List Char)
  | 'F' :: 'Y' :: rest =>
    tryYearK rest (min (rest.takeWhile Char.isDigit).length 4)
  | _ => none

/-- re.search of the FY pattern: leftmost position wins. -/
def searchFY : List Char → Option (List Char × List Char)
  | [] => none
  | c :: cs =>
    match fyMatchAt (c :: cs) with
    | some r => some r
    | none => searchFY cs

/-!  _verify_calculated, split into its three early-return blocks.
A block that falls through is none / ok none.  -/

/-- Earliest year of the sorted revenue keys (years[0]). -/
def cagr_start_yr (rev : FinSeries) : Int := (sortInts (dkeys rev)).headD 0

/-- Latest year of the sorted revenue keys (years[-1]). -/
def cagr_end_yr (rev : FinSeries) : Int := (sortInts (dkeys rev)).getLastD 0

/-- The CAGR value, ((end_val / start_val) ** (1/n) - 1) * 100, over
the reals. -/
noncomputable def cagr_value (start_val end_val : Frac) (n : Int) : ℝ :=
  ((start_val.toReal⁻¹ * end_val.toReal) ^ ((1 : ℝ) / (n : ℝ)) - 1) * 100

/-- The Citation built by the CAGR block: formula, substituted inputs
and rounded result, newline-separated, in that order. -/
noncomputable def cagr_citation (slide_num : Int) (claim : String)
    (start_yr end_yr : Int) (start_val end_val : Frac) : Citation :=
  let n : Int := end_yr - start_yr
  let formula : String :=
    "CAGR = ((FY" ++ toString end_yr ++ "_Revenue / FY" ++ toString start_yr ++
      "_Revenue)^(1/" ++ toString n ++ ") - 1) × 100"
  let calculation : String :=
    "= ((" ++ fmtQ 2 end_val ++ " / " ++ fmtQ 2 start_val ++ ")^(1/" ++
      toString n ++ ") - 1) × 100"
  let result : String := "= " ++ fmtR1 (cagr_value start_val end_val n) ++ "%"
  { slide_num := slide_num, claim := claim, verified := true,
    source_type := "calculated",
    source_reference := formula ++ "\n" ++ calculation ++ "\n" ++ result }

/-- The CAGR block of _verify_calculated; none means fall-through to
the Margin block. -/
noncomputable def cagr_check (st : VerifierState) (slide_num : Int)
    (claim : String) : Option Citation :=
  if containsSub claim "CAGR" then
    if 2 ≤ st.revenue.length then
      let start_yr := cagr_start_yr st.revenue
      let end_yr := cagr_end_yr st.revenue
      let start_val := dgetD st.revenue start_yr
      let end_val := dgetD st.revenue end_yr
      let n : Int := end_yr - start_yr
      if Frac.lt (Frac.ofInt 0) start_val && decide (0 < n) then
        some (cagr_citation slide_num claim start_yr end_yr start_val end_val)
      else none
    else none
  else none

/-- The Citation built by the Margin block. -/
def margin_citation (slide_num : Int) (claim : String) (yr : Int)
    (e r : Frac) : Citation :=
  let formula : String :=
    "EBITDA Margin = (FY" ++ toString yr ++ "_EBITDA / FY" ++ toString yr ++
      "_Revenue) × 100"
  let calculation : String := "= (" ++ fmtQ 2 e ++ " / " ++ fmtQ 2 r ++ ") × 100"
  let result : String := "= " ++ fmtQ 1 (Frac.mul (Frac.div e r) (Frac.ofInt 100)) ++ "%"
  { slide_num := slide_num, claim := claim, verified := true,
    source_type := "calculated",
    source_reference := formula ++ "\n" ++ calculation ++ "\n" ++ result }

/-- The Margin block of _verify_calculated; none means fall-through to
the FY block.  Note that, like the source, it never compares the margin
it computes with the figure written in the claim. -/
def margin_check (st : VerifierState) (slide_num : Int)
    (claim : String) : Option Citation :=
  if containsSub claim "Margin" then
    if !st.ebitda.isEmpty && !st.revenue.isEmpty then
      let common := (dkeys st.ebitda).filter (fun y => dmem st.revenue y)
      if !common.isEmpty then
        let yr := maxIntList common
        if Frac.lt (Frac.ofInt 0) (dgetD st.revenue yr) then
          some (margin_citation slide_num claim yr (dgetD st.ebitda yr)
            (dgetD st.revenue yr))
        else none
      else none
    else none
  else none

/-- The FY block of _verify_calculated.  float() on the matched amount
group can raise ValueError in the source (the group admits several
dots); that uncaught exception is the error result here. -/
def fy_check (st : VerifierState) (slide_num : Int)
    (claim : String) : Except Unit (Option Citation) :=
  match searchFY claim.toList with
  | none => .ok none
  | some (yd, amt) =>
    match pyFloat (String.mk amt) with
    | none => .error ()
    | some value =>
      let year : Int :=
        if yd.length == 2 then 2000 + (natOfDigits yd : Int)
        else (natOfDigits yd : Int)
      if dmem st.revenue year &&
          Frac.lt (Frac.abs (Frac.sub (dgetD st.revenue year) value)) (Frac.ofInt 1) then
        .ok (some
          { slide_num := slide_num, claim := claim, verified := true,
            source_type := "onepager",
            source_reference := "Financial data: Revenue FY" ++ toString year ++
              " = ₹" ++ fmtQ 2 (dgetD st.revenue year) ++ " Cr" })
      else if dmem st.ebitda year &&
          Frac.lt (Frac.abs (Frac.sub (dgetD st.ebitda year) value)) (Frac.ofInt 1) then
        .ok (some
          { slide_num := slide_num, claim := claim, verified := true,
            source_type := "onepager",
            source_reference := "Financial data: EBITDA FY" ++ toString year ++
              " = ₹" ++ fmtQ 2 (dgetD st.ebitda year) ++ " Cr" })
      else .ok none

/-- CitationVerifier._verify_calculated: the three blocks in source
order, then the unverified fallback. -/
noncomputable def verify_calculated (st : VerifierState) (slide_num : Int)
    (claim : String) : Except Unit Citation :=
  match cagr_check st slide_num claim with
  | some c => .ok c
  | none =>
    match margin_check st slide_num claim with
    | some c => .ok c
    | none =>
      match fy_check st slide_num claim with
      | .error e => .error e
      | .ok (some c) => .ok c
      | .ok none =>
        .ok
          { slide_num := slide_num, claim := claim, verified := false,
            source_type := "unverified",
            source_reference := "Calculated value not verified" }

/-!  _verify_web_data.  -/

/-- The markdown-link source list built at the head of
_verify_web_data; Industry estimates when no source carries a URL. -/
def web_source_ref (md : MarketData) : String :=
  let urls := md.sources.map (fun p => "[" ++ p.1 ++ "](" ++ p.2 ++ ")")
  if urls.isEmpty then "Industry estimates" else String.intercalate "\n" urls

/-- The market-size block: pattern test, then a truthiness test on the
stored value; none is fall-through. -/
def web_market_size_check (md : MarketData) (slide_num : Int)
    (claim : String) : Option Citation :=
  if containsSub claim "Market Size" || containsSub claim "Industry Size" ||
      containsSub claim "$" then
    match md.india_market_size with
    | some ms =>
      some
        { slide_num := slide_num, claim := claim, verified := true,
          source_type := "web",
          source_reference := "Data: India market size = " ++ ms ++
            "\nSources:\n" ++ web_source_ref md }
    | none => none
  else none

/-- The growth-rate block of _verify_web_data. -/
def web_growth_check (md : MarketData) (slide_num : Int)
    (claim : String) : Option Citation :=
  if containsSub claim "Growth" || containsCI claim "CAGR" then
    match md.cagr with
    | some cg =>
      some
        { slide_num := slide_num, claim := claim, verified := true,
          source_type := "web",
          source_reference := "Data: Industry CAGR = " ++ cg ++
            "\nSources:\n" ++ web_source_ref md }
    | none => none
  else none

/-- The industry-drivers block of _verify_web_data. -/
def web_drivers_check (md : MarketData) (slide_num : Int)
    (claim : String) : Option Citation :=
  if containsSub claim "Positioned for" || containsSub (lowerStr claim) "driven by" then
    if md.key_drivers.isEmpty then none
    else
      some
        { slide_num := slide_num, claim := claim, verified := true,
          source_type := "web",
          source_reference := "Industry drivers: " ++
            String.intercalate ", " md.key_drivers ++ "\nSources:\n" ++
            web_source_ref md }
  else none

/-- The scraped-company-pages loop: the first page whose lowercased
content contains one of the first three words of the lowercased claim. -/
def web_company_check (pages : List (String × PageData)) (slide_num : Int)
    (claim : String) : Option Citation :=
  let cwords := (pyWords (lowerStr claim).toList).take 3
  match pages.find? (fun p =>
      cwords.any (fun w => subOccurs w (lowerStr p.2.content).toList)) with
  | some p =>
    some
      { slide_num := slide_num, claim := claim, verified := true,
        source_type := "web",
        source_reference := "Source: Company Website - " ++ p.1 ++ "\nURL: " ++
          p.2.url.getD "N/A" }
  | none => none

/-- CitationVerifier._verify_web_data: the three market-data blocks run
only when market_data is truthy; then the company-pages loop; then the
unverified fallback. -/
def verify_web_data (st : VerifierState) (slide_num : Int)
    (claim : String) : Citation :=
  let fromMarket : Option Citation :=
    match st.web.market_data with
    | some md =>
      match web_market_size_check md slide_num claim with
      | some c => some c
      | none =>
        match web_growth_check md slide_num claim with
        | some c => some c
        | none => web_drivers_check md slide_num claim
    | none => none
  match fromMarket with
  | some c => c
  | none =>
    match web_company_check st.web.company_info slide_num claim with
    | some c => c
    | none =>
      { slide_num := slide_num, claim := claim, verified := false,
        source_type := "unverified",
        source_reference := "Web data not found" }

/-!  _verify_onepager.  -/

/-- The characters stripped by _clean_for_matching (the regex class
asterisk, underscore, hash, hyphen, pipe, backtick). -/
def specialChar (c : Char) : Bool :=
  c == '*' || c == '_' || c == '#' || c == '-' || c == '|' || c.toNat == 96

/-- Collapse every maximal whitespace run to a single space (the
whitespace-plus to space substitution). -/
def collapseWsAux (prevSpace : Bool) : List Char → List Char
  | [] => []
  | c :: cs =>
    if isPySpace c then
      if prevSpace then collapseWsAux true cs else ' ' :: collapseWsAux true cs
    else c :: collapseWsAux false cs

/-- CitationVerifier._clean_for_matching: strip the markdown special
characters, collapse whitespace, lowercase, strip. -/
def clean_for_matching (text : String) : String :=
  pyStrip (lowerStr (String.mk (collapseWsAux false
    (text.toList.filter (fun c => !specialChar c)))))

/-- Running best line match of the _verify_onepager loop. -/
structure BestAcc where
  score : Frac
  found : Option (Nat × String)
deriving Repr, DecidableEq

/-- One iteration of the line loop: the direct containment score, then
the keyword-overlap score, each updating the running best. -/
def line_step (cc : List Char) (cwords : List (List Char)) (acc : BestAcc)
    (idx : Nat) (line : String) : BestAcc :=
  let cl := (clean_for_matching line).toList
  let acc1 :=
    if subOccurs cc cl || subOccurs cl cc then
      let score : Frac := ⟨(cc.length : Int), (max cl.length 1 : Int)⟩
      if Frac.lt acc.score score then ⟨score, some (idx, line)⟩ else acc
    else acc
  if 2 < cwords.length then
    let lwords := (pyWords cl).dedup
    let overlap : Frac :=
      ⟨((cwords.filter (fun w => lwords.contains w)).length : Int),
        (cwords.length : Int)⟩
    if Frac.lt ⟨1, 2⟩ overlap && Frac.lt acc1.score overlap then
      ⟨overlap, some (idx, line)⟩
    else acc1
  else acc1

/-- The line loop, lines numbered from one. -/
def scan_lines (cc : List Char) (cwords : List (List Char)) (idx : Nat)
    (acc : BestAcc) : List String → BestAcc
  | [] => acc
  | l :: ls => scan_lines cc cwords (idx + 1) (line_step cc cwords acc idx l) ls

/-- The extracted-data fields fallback of _verify_onepager: the first
flattened string field related to the claim by containment either way. -/
def onepager_fields (st : VerifierState) (slide_num : Int) (claim : String)
    (cc : List Char) : Citation :=
  match st.extracted_fields.find? (fun p =>
      let cf := (clean_for_matching p.2).toList
      subOccurs cc cf || subOccurs cf cc) with
  | some p =>
    { slide_num := slide_num, claim := claim, verified := true,
      source_type := "onepager", source_reference := "Field: " ++ p.1 }
  | none =>
    { slide_num := slide_num, claim := claim, verified := false,
      source_type := "unverified",
      source_reference := "No matching source found in one-pager" }

/-- CitationVerifier._verify_onepager: best line match above the 0.3
threshold, else the extracted-fields fallback, else unverified. -/
def verify_onepager (st : VerifierState) (slide_num : Int)
    (claim : String) : Citation :=
  let cc := (clean_for_matching claim).toList
  let cwords := (pyWords cc).dedup
  let acc := scan_lines cc cwords 1 ⟨Frac.ofInt 0, none⟩ st.md_lines
  match acc.found with
  | some (ln, line) =>
    if Frac.lt ⟨3, 10⟩ acc.score then
      { slide_num := slide_num, claim := claim, verified := true,
        source_type := "onepager",
        source_reference := "Line " ++ toString ln ++ ": " ++ pyStrip line,
        line_number := some ln, line_content := some (pyStrip line) }
    else onepager_fields st slide_num claim cc
  | none => onepager_fields st slide_num claim cc

/-!  _verify_claim and verify_slide_content.  -/

/-- CitationVerifier._verify_claim.  The guard not claim or
len(claim.strip()) < 3 collapses to the length test, since the only
falsy str is empty and strips to length zero.  The context argument of
the source is never read by any branch and is omitted. -/
noncomputable def verify_claim (st : VerifierState) (slide_num : Int)
    (claim : String) : Except Unit Citation :=
  if (pyStrip claim).length < 3 then
    .ok
      { slide_num := slide_num, claim := claim, verified := false,
        source_type := "unverified", source_reference := "Empty or too short" }
  else if is_calculated_claim claim then verify_calculated st slide_num claim
  else if is_web_claim claim then .ok (verify_web_data st slide_num claim)
  else .ok (verify_onepager st slide_num claim)

/-- Content of one slide (dataclass SlideContent of content_writer.py).
Sections is an insertion-ordered dict of section name to items; metrics
values are only echoed into rendering and are modelled as strings;
citations (a composer-side audit list) is not modelled. -/
structure SlideContent where
  title : String
  sections : List (String × List String)
  metrics : List (String × String) := []
  hooks : Option (List String) := none
deriving Repr, DecidableEq

/-- The claims of a slide in verification order: section items in
section order, then the hooks when truthy. -/
def slide_claims (slide : SlideContent) : List String :=
  (slide.sections.map Prod.snd).flatten ++
    (match slide.hooks with
     | some hs => if hs.isEmpty then [] else hs
     | none => [])

/-- CitationVerifier.verify_slide_content: verify every claim of the
slide in order; an exception escaping one claim aborts the rest. -/
noncomputable def verify_slide_content (st : VerifierState) (slide_num : Int)
    (slide : SlideContent) : Except Unit (List Citation) :=
  (slide_claims slide).mapM (verify_claim st slide_num)

/-!  KelpPipeline._filter_verified of main.py.  -/

/-- The verification test _filter_verified applies to one item: some
accumulated citation is verified and equals, contains or is contained
in the item. -/
def item_is_verified (citations : List Citation) (item : String) : Bool :=
  citations.any (fun c =>
    c.verified &&
      (c.claim == item || containsSub c.claim item || containsSub item c.claim))

/-- The per-slide body of _filter_verified: keep each section's
verified items, drop a section that loses all items, filter hooks and
turn an empty result back into none. -/
def filter_slide (citations : List Citation) (slide : SlideContent) :
    SlideContent :=
  let verified_sections :=
    slide.sections.foldl (fun acc p =>
      let vi := p.2.filter (item_is_verified citations)
      if vi.isEmpty then acc else acc ++ [(p.1, vi)]) []
  let verified_hooks :=
    match slide.hooks with
    | some hs => if hs.isEmpty then [] else hs.filter (item_is_verified citations)
    | none => []
  { title := slide.title, sections := verified_sections,
    metrics := slide.metrics,
    hooks := if verified_hooks.isEmpty then none else some verified_hooks }

/-- KelpPipeline._filter_verified over the slide list. -/
def filter_verified (citations : List Citation)
    (slides : List SlideContent) : List SlideContent :=
  slides.map (filter_slide citations)

/-!  DataExtractor._parse_financial_row.  -/

/-- Parse one pipe-separated entry of a financial row: colon present,
integer year, value neither empty nor none, float value, and the
Lakhs-to-Crores heuristic (divide by 100 above 100) when conversion is
on.  A parse failure of int() or float() is the swallowed ValueError,
so the entry yields nothing. -/
def parse_entry (convert_to_cr : Bool) (entry : String) : Option (Int × Frac) :=
  let e := pyStrip entry
  if e.toList.contains ':' then
    match splitFirst ':' e.toList with
    | some (p0, p1) =>
      match pyInt (String.mk p0) with
      | none => none
      | some year =>
        let value_str := pyStrip (String.mk p1)
        if lowerStr value_str != "none" && value_str != "" then
          match pyFloat value_str with
          | none => none
          | some v =>
            some (year,
              if convert_to_cr && Frac.lt (Frac.ofInt 100) v then
                Frac.div v (Frac.ofInt 100)
              else v)
        else none
    | none => none
  else none

/-- One loop iteration of _parse_financial_row: a parsed entry is
assigned into the dict, a failed one leaves it unchanged. -/
def parse_row_step (convert_to_cr : Bool) (d : FinSeries) (entry : String) :
    FinSeries :=
  match parse_entry convert_to_cr entry with
  | some (y, v) => dinsert d y v
  | none => d

/-- DataExtractor._parse_financial_row: split on pipes, parse each
entry, skip failures, build the year-to-value dict in order. -/
def parse_financial_row (row_data : String) (convert_to_cr : Bool) : FinSeries :=
  (splitOnChar '|' row_data).foldl (parse_row_step convert_to_cr) []

/-!  DomainClassifier keyword fallback.  -/

/-- The fixed DOMAIN_KEYWORDS table: key, display name, keyword list,
in source order. -/
def DOMAIN_KEYWORDS : List (String × String × List String) :=
  [("manufacturing", "Manufacturing & Industrials",
    ["manufacturing", "production", "plant", "facility", "industrial",
     "oem", "b2b", "fabrication", "assembly", "machining", "factory",
     "electronics", "components", "hardware"]),
   ("technology", "Technology & IT Services",
    ["software", "saas", "platform", "cloud", "digital", "ai", "ml",
     "development", "consulting", "integration", "it services", "tech",
     "data", "analytics", "salesforce", "odoo", "erp", "crm"]),
   ("logistics", "Logistics & Supply Chain",
    ["logistics", "supply chain", "warehousing", "transportation",
     "distribution", "freight", "3pl", "last mile", "express", "delivery",
     "shipping", "cargo", "courier"]),
   ("consumer", "Consumer Brands (D2C/B2C)",
    ["brand", "consumer", "d2c", "e-commerce", "retail", "wellness",
     "fmcg", "marketplace", "lifestyle", "personal care", "food",
     "beverage", "fashion", "beauty"]),
   ("healthcare", "Healthcare & Pharma",
    ["pharma", "pharmaceutical", "healthcare", "medical", "biotech",
     "diagnostics", "hospital", "therapeutic", "formulation", "drug",
     "medicine", "clinical", "api", "generic"]),
   ("infrastructure", "Infrastructure & Real Estate",
    ["construction", "infrastructure", "real estate", "developer",
     "epc", "project", "contractor", "builder", "roads", "bridges",
     "housing", "commercial"]),
   ("chemicals", "Chemicals & Specialty Materials",
    ["chemical", "polymer", "resin", "specialty", "formulation",
     "additive", "coating", "petrochemical", "industrial chemicals",
     "paints", "adhesives"]),
   ("automotive", "Automotive & Components",
    ["automotive", "auto components", "forging", "casting", "oem",
     "tier-1", "aftermarket", "vehicle", "car", "truck", "two-wheeler",
     "engine", "transmission"])]

/-- Exact-prefix stripping used by the occurrence counter. -/
def stripPrefixB : List Char → List Char → Option (List Char)
  | [], l => some l
  | _ :: _, [] => none
  | p :: ps, c :: cs => if p == c then stripPrefixB ps cs else none

/-- Python str.count for a nonempty pattern: non-overlapping
occurrences, scanning left to right and resuming after each match.
Structural recursion on a fuel argument; every step consumes at least
one character, so fuel equal to the text length is enough, and the
zero-fuel case is unreachable. -/
def countOccF (pat : List Char) : Nat → List Char → Nat
  | 0, _ => 0
  | _ + 1, [] => 0
  | fuel + 1, c :: cs =>
    match stripPrefixB pat (c :: cs) with
    | some rest => 1 + countOccF pat fuel rest
    | none => countOccF pat fuel cs

/-- Python str.count (an empty pattern counts length plus one). -/
def countOcc (pat : List Char) (l : List Char) : Nat :=
  match pat with
  | [] => l.length + 1
  | p :: ps => countOccF (p :: ps) l.length l

/-- Total keyword-occurrence score of one domain keyword list against
the lowercased text. -/
def domain_score (textL : List Char) (kws : List String) : Nat :=
  (kws.map (fun kw => countOcc (lowerStr kw).toList textL)).sum

/-- The per-domain score list of _classify_with_keywords, with the
matched keywords (those with a positive count, in table order). -/
def keyword_scores (text : String) : List (String × Nat × List String) :=
  let tl := (lowerStr text).toList
  DOMAIN_KEYWORDS.map (fun d =>
    (d.1, domain_score tl d.2.2,
      d.2.2.filter (fun kw => 0 < countOcc (lowerStr kw).toList tl)))

/-- Python max over the scores dict: the first key of maximal score in
table order. -/
def best_domain (scores : List (String × Nat)) : String × Nat :=
  match scores with
  | [] => ("", 0)
  | x :: xs => xs.foldl (fun b y => if b.2 < y.2 then y else b) x

/-- The confidence rule of _classify_with_keywords: the best score
share of the total plus 0.3, capped at 0.9, with floor 0.5 when no
keyword matched anywhere. -/
def keyword_confidence (best_score total : Nat) : Frac :=
  if 0 < total then
    Frac.min ⟨9, 10⟩
      (Frac.add (Frac.div (Frac.ofInt best_score) (Frac.ofInt total)) ⟨3, 10⟩)
  else ⟨1, 2⟩

/-- DomainClassifier._classify_with_keywords: best keyword domain,
the confidence rule above, and the reasoning line. -/
def classify_with_keywords (text : String) : String × Frac × String :=
  let scores := keyword_scores text
  let best := best_domain (scores.map (fun d => (d.1, d.2.1)))
  let total : Nat := (scores.map (fun d => d.2.1)).sum
  let matched :=
    ((scores.find? (fun d => d.1 == best.1)).map (fun d => d.2.2)).getD []
  (best.1, keyword_confidence best.2 total,
    "Keyword matches: " ++ String.intercalate ", " (matched.take 5))

/-!  ContentWriter._anonymize and _generate_slide_1.  -/

/-- Case-insensitive prefix stripping for the substitution scanner. -/
def stripPrefixCI : List Char → List Char → Option (List Char)
  | [], l => some l
  | _ :: _, [] => none
  | p :: ps, c :: cs =>
    if p.toLower == c.toLower then stripPrefixCI ps cs else none

/-- A word character of the regex boundary class (ASCII letters,
digits, underscore; the texts the pipeline anonymizes are ASCII). -/
def wordChar (c : Char) : Bool := c.isAlphanum || c == '_'

/-- Word-ness of the character preceding the scan position (none at the
start of the string counts as a non-word position). -/
def prevIsWord : Option Char → Bool
  | none => false
  | some c => wordChar c

/-- Case-insensitive global substitution, the model of re.sub with the
IGNORECASE flag.  The scan runs over the original text left to right,
replacements are spliced in and never re-scanned, and when bdry is true
the match must sit at word boundaries on both sides (the patterns used
with boundaries begin and end with word characters, for which the
boundary is exactly a non-word neighbour or the string edge).
Structural recursion on a fuel argument; every step consumes at least
one character, so fuel equal to the text length is enough, and the
zero-fuel case is unreachable. -/
def subCI (p : Char) (ps : List Char) (repl : List Char) (bdry : Bool) :
    Nat → Option Char → List Char → List Char
  | 0, _, _ => []
  | _ + 1, _, [] => []
  | fuel + 1, prev, c :: cs =>
    match stripPrefixCI (p :: ps) (c :: cs) with
    | some rest =>
      let ok : Bool :=
        !bdry ||
          (!prevIsWord prev &&
            (match rest with
             | [] => true
             | d :: _ => !wordChar d))
      if ok then
        repl ++ subCI p ps repl bdry fuel (some ((c :: cs).getD ps.length c)) rest
      else c :: subCI p ps repl bdry fuel (some c) cs
    | none => c :: subCI p ps repl bdry fuel (some c) cs

/-- One substitution pass on strings; the empty pattern never matches
anything in the source call sites and substitutes nothing here. -/
def subCIStr (pat repl : String) (bdry : Bool) (text : String) : String :=
  match pat.toList with
  | [] => text
  | p :: ps =>
    String.mk (subCI p ps repl.toList bdry text.toList.length none text.toList)

/-- The fixed location and organization substitution table of
_anonymize, in source order; every pattern carries word boundaries. -/
def locationSubs : List (String × String) :=
  [("Bangalore", "South India"), ("Bengaluru", "South India"),
   ("Mumbai", "West India"), ("Delhi", "North India"),
   ("Chennai", "South India"), ("Hyderabad", "South India"),
   ("Pune", "West India"), ("Noida", "North India"),
   ("DRDO", "Defence Organization"), ("ISRO", "Space Agency"),
   ("HAL", "Aerospace PSU")]

/-- ContentWriter._anonymize: company-name substitutions (full name,
then its first word, both unbounded), then the location table. -/
def anonymize (company_name : String) (text : String) : String :=
  if text == "" then text
  else
    let r0 :=
      if company_name != "" then
        let r1 := subCIStr company_name "The Company" false text
        subCIStr (String.mk ((pyWords company_name.toList).headD []))
          "The Company" false r1
      else text
    locationSubs.foldl (fun t p => subCIStr p.1 p.2 true t) r0

/-- Data consulted by _generate_slide_1, one field per dict key it
reads; industries_served may be a comma-separated string or a list in
the source. -/
structure CompanyData where
  business_description : String := ""
  products_services : List String := []
  industries_served : String ⊕ List String := Sum.inl ""
  key_operational_indicators : List String := []
  certifications : List String := []
  founded : String := ""
  employees : String := ""
deriving Repr, DecidableEq

/-- Python truthiness of the industries_served field. -/
def industriesTruthy : String ⊕ List String → Bool
  | Sum.inl s => s != ""
  | Sum.inr l => !l.isEmpty

/-- First match of the regex digit-then-digits-or-commas in the
employees string. -/
def firstNumGroup (s : String) : Option String :=
  match s.toList.dropWhile (fun c => !c.isDigit) with
  | [] => none
  | c :: cs =>
    some (String.mk (c :: cs.takeWhile (fun d => d.isDigit || d == ',')))

/-- Python slicing s[:n] on strings. -/
def strTake (s : String) (n : Nat) : String := String.mk (s.toList.take n)

/-- ContentWriter._generate_slide_1.  The external text shortener
(_shorten_text, an LLM call with a word-boundary fallback) is passed in
as an oracle; the never-shorten paths do not call it.  Sections are
assembled in source order: overview (anonymized, shortened over 200
characters), up to eight anonymized products verbatim, up to six
industries, up to four highlights (anonymized, shortened over 70
characters), up to five certifications verbatim. -/
def generate_slide_1 (shorten : String → Nat → String → String)
    (company_name : String) (data : CompanyData) : SlideContent :=
  let s1 : List (String × List String) :=
    if data.business_description != "" then
      let overview := anonymize company_name data.business_description
      let overview :=
        if 200 < overview.length then shorten overview 200 "overview"
        else overview
      [("Company Overview", [overview])]
    else []
  let s2 :=
    if !data.products_services.isEmpty then
      s1 ++ [("Products & Services",
        (data.products_services.take 8).map (anonymize company_name))]
    else s1
  let s3 :=
    if industriesTruthy data.industries_served then
      let industry_list :=
        match data.industries_served with
        | Sum.inl s =>
          ((splitOnChar ',' s).map pyStrip).filter (fun i => i != "")
        | Sum.inr l => l
      s2 ++ [("Industries Served", industry_list.take 6)]
    else s2
  let s4 :=
    if !data.key_operational_indicators.isEmpty then
      s3 ++ [("Key Highlights",
        (data.key_operational_indicators.take 4).map (fun o =>
          let t := anonymize company_name o
          if 70 < t.length then shorten t 70 "highlight" else t))]
    else s3
  let s5 :=
    if !data.certifications.isEmpty then
      s4 ++ [("Certifications", data.certifications.take 5)]
    else s4
  let metrics :=
    (if data.founded != "" then [("Founded", strTake data.founded 10)] else []) ++
      (if data.employees != "" then
        match firstNumGroup data.employees with
        | some g => [("Employees", g)]
        | none => []
      else [])
  { title := "Business Profile & Capabilities", sections := s5,
    metrics := metrics, hooks := none }

/-- Dict lookup on a sections association list. -/
def lookupSection (name : String) (sections : List (String × List String)) :
    Option (List String) :=
  (sections.find? (fun p => p.1 == name)).map Prod.snd

/-!  Theorems.  -/

/-- Sources with the margin example of the specification: ebitda 40 and
revenue 210 in fiscal year 2024. -/
def marginState : VerifierState :=
  { revenue := [(2024, Frac.ofInt 210)], ebitda := [(2024, Frac.ofInt 40)] }

/-- C2.  The specification says a margin claim is verified only when
its text contains the recomputed one-decimal figure, and that with
ebitda 40 and revenue 210 the claim EBITDA Margin: 25.0% does not
verify.  The code never compares the recomputed figure with the claim
text: with those sources the 25.0% claim comes back verified, with the
recomputed 19.0% only in the reference, exactly like the correct 19.0%
claim. -/
theorem c2_margin_not_compared :
    verify_claim marginState 1 "EBITDA Margin: 25.0%" =
      .ok
        { slide_num := 1, claim := "EBITDA Margin: 25.0%", verified := true,
          source_type := "calculated",
          source_reference := "EBITDA Margin = (FY2024_EBITDA / FY2024_Revenue) × 100\n= (40.00 / 210.00) × 100\n= 19.0%" }
    ∧ verify_claim marginState 1 "EBITDA Margin: 19.0%" =
      .ok
        { slide_num := 1, claim := "EBITDA Margin: 19.0%", verified := true,
          source_type := "calculated",
          source_reference := "EBITDA Margin = (FY2024_EBITDA / FY2024_Revenue) × 100\n= (40.00 / 210.00) × 100\n= 19.0%" } :=
  ⟨rfl, rfl⟩

/-- Sources with revenue 210 in fiscal year 2024 and a one-pager whose
single line shares nothing with the FY claims. -/
def fyState : VerifierState :=
  { md_lines := ["# Acme One Pager"], revenue := [(2024, Frac.ofInt 210)] }

/-- C3 counterexample.  The claim asserts FY24: ₹210 Cr is verified
through the direct FY-value tolerance check; but that check lives in
the calculated branch, which this claim never reaches (it contains no
CAGR or Margin language and no web pattern), so it is routed to
one-pager matching and ends up unverified. -/
theorem c3_fy_claim_counterexample :
    verify_claim fyState 1 "FY24: ₹210 Cr" =
      .ok
        { slide_num := 1, claim := "FY24: ₹210 Cr", verified := false,
          source_type := "unverified",
          source_reference := "No matching source found in one-pager" }
    ∧ is_calculated_claim "FY24: ₹210 Cr" = false
    ∧ is_web_claim "FY24: ₹210 Cr" = false :=
  ⟨rfl, rfl, rfl⟩

/-- C3 amended.  The direct FY-value tolerance check applies only to
claims routed to the calculated branch.  For such a claim, for example
one that also carries Margin language while the ebitda series is
empty, the check verifies FY24: ₹210 Cr against revenue 210 for 2024
(two-digit year resolved to 2024, absolute difference under one), and
leaves FY24: ₹215 Cr unverified. -/
theorem c3_fy_tolerance_amended :
    verify_claim fyState 1 "Margin FY24: ₹210 Cr" =
      .ok
        { slide_num := 1, claim := "Margin FY24: ₹210 Cr", verified := true,
          source_type := "onepager",
          source_reference := "Financial data: Revenue FY2024 = ₹210.00 Cr" }
    ∧ verify_claim fyState 1 "Margin FY24: ₹215 Cr" =
      .ok
        { slide_num := 1, claim := "Margin FY24: ₹215 Cr", verified := false,
          source_type := "unverified",
          source_reference := "Calculated value not verified" } :=
  ⟨rfl, rfl⟩

/-- Sources for the crash demonstration: revenue 40 in fiscal year
2025 and nothing else. -/
def crashState : VerifierState := { revenue := [(2025, Frac.ofInt 40)] }

/-- The slide whose first claim crashes the verifier. -/
def crashSlide : SlideContent :=
  { title := "s",
    sections := [("Financials", ["Margin FY24: ₹1.2.3 Cr", "Margin FY25: ₹40 Cr"])] }

/-- C5.  The specification says verification never raises and a bad
claim never blocks later ones.  The FY amount group of the calculated
branch admits several dots, float() then raises an uncaught
ValueError: the claim Margin FY24: ₹1.2.3 Cr makes _verify_claim
raise, and inside verify_slide_content the exception aborts the
remaining claims, although the second claim of the slide would have
verified on its own. -/
theorem c5_verifier_crash :
    verify_claim crashState 2 "Margin FY24: ₹1.2.3 Cr" = .error ()
    ∧ verify_slide_content crashState 2 crashSlide = .error ()
    ∧ verify_claim crashState 2 "Margin FY25: ₹40 Cr" =
      .ok
        { slide_num := 2, claim := "Margin FY25: ₹40 Cr", verified := true,
          source_type := "onepager",
          source_reference := "Financial data: Revenue FY2025 = ₹40.00 Cr" } :=
  ⟨rfl, rfl, rfl⟩

/-- C6 counterexample.  The claim asserts every call of the per-claim
verification function returns a Citation; the call below raises
instead (uncaught ValueError from float() on the FY amount group). -/
theorem c6_claim_counterexample :
    verify_claim { ebitda := [(2025, Frac.ofInt 5)] } 1 "Margin FY25: ₹3.3.3 Cr" =
      .error () :=
  rfl

/-- C10 counterexample.  The claim asserts that with empty financial
series every claim containing Margin or CAGR yields verified false;
the Margin claim below instead raises out of the calculated branch,
even though its text sits verbatim in the one-pager lines. -/
theorem c10_dispatch_counterexample :
    verify_claim { md_lines := ["Margin FY24: ₹2.2.2 Cr"] } 1
      "Margin FY24: ₹2.2.2 Cr" = .error () :=
  rfl

/-- Lookup on a cons cell of a sections list. -/
theorem lookupSection_cons (n : String) (p : String × List String)
    (l : List (String × List String)) :
    lookupSection n (p :: l) =
      if p.1 == n then some p.2 else lookupSection n l := by
  simp only [lookupSection, List.find?]
  split <;> simp_all

/-- Lookup distributes over append, first hit wins. -/
theorem lookupSection_append (n : String) (l m : List (String × List String)) :
    lookupSection n (l ++ m) =
      match lookupSection n l with
      | some v => some v
      | none => lookupSection n m := by
  induction l with
  | nil => simp [lookupSection]
  | cons p l ih =>
    rw [List.cons_append, lookupSection_cons, lookupSection_cons]
    split <;> simp [ih]

/-- The sections of slide one as a concatenation of optional blocks, in
assembly order. -/
theorem slide1_sections (shorten : String → Nat → String → String)
    (company_name : String) (data : CompanyData) :
    (generate_slide_1 shorten company_name data).sections =
      (if data.business_description != "" then
        [("Company Overview",
          [(fun overview =>
              if 200 < overview.length then shorten overview 200 "overview"
              else overview) (anonymize company_name data.business_description)])]
       else []) ++
      (if !data.products_services.isEmpty then
        [("Products & Services",
          (data.products_services.take 8).map (anonymize company_name))]
       else []) ++
      (if industriesTruthy data.industries_served then
        [("Industries Served",
          (match data.industries_served with
           | Sum.inl s =>
             ((splitOnChar ',' s).map pyStrip).filter (fun i => i != "")
           | Sum.inr l => l).take 6)]
       else []) ++
      (if !data.key_operational_indicators.isEmpty then
        [("Key Highlights",
          (data.key_operational_indicators.take 4).map (fun o =>
            let t := anonymize company_name o
            if 70 < t.length then shorten t 70 "highlight" else t))]
       else []) ++
      (if !data.certifications.isEmpty then
        [("Certifications", data.certifications.take 5)]
       else []) := by
  cases hb : data.business_description != "" <;>
  cases hp : data.products_services.isEmpty <;>
  cases hi : industriesTruthy data.industries_served <;>
  cases hk : data.key_operational_indicators.isEmpty <;>
  cases hc : data.certifications.isEmpty <;>
    simp only [generate_slide_1, hb, hp, hi, hk, hc, Bool.not_true,
      Bool.not_false, if_true, if_false, Bool.false_eq_true, Bool.true_eq_false,
      List.nil_append, List.append_nil, List.append_assoc, ite_true, ite_false]

/-- C7 counterexample.  The claim asserts every emitted product equals
the source item text exactly; products pass through _anonymize, so a
product naming a listed location is emitted altered. -/
theorem c7_verbatim_counterexample :
    lookupSection "Products & Services"
      ((generate_slide_1 (fun t _ _ => t) "Acme"
        { products_services := ["Precision machining in Mumbai"],
          certifications := ["ISO 9001"] }).sections) =
      some ["Precision machining in West India"]
    ∧ ("Precision machining in West India" : String) ≠
        "Precision machining in Mumbai" :=
  ⟨rfl, by decide⟩

/-- C7 amended.  Products and certifications are never length-cut and
never get an ellipsis: only the item-count caps apply (eight products,
five certifications).  Each emitted certification equals the source
text exactly; each emitted product equals the anonymization of the
source text (the fixed company-name and location substitutions), not
necessarily the source text itself. -/
theorem c7_never_shorten_amended (shorten : String → Nat → String → String)
    (company_name : String) (data : CompanyData) :
    (data.products_services ≠ [] →
      lookupSection "Products & Services"
        (generate_slide_1 shorten company_name data).sections =
        some ((data.products_services.take 8).map (anonymize company_name)))
    ∧ (data.certifications ≠ [] →
      lookupSection "Certifications"
        (generate_slide_1 shorten company_name data).sections =
        some (data.certifications.take 5)) := by
  rw [slide1_sections]
  constructor
  · intro hne
    have hp : data.products_services.isEmpty = false := by
      simp [List.isEmpty_iff, hne]
    cases hb : data.business_description != "" <;>
      simp [hp, hb, lookupSection_append, lookupSection_cons, lookupSection]
  · intro hne
    have hc : data.certifications.isEmpty = false := by
      simp [List.isEmpty_iff, hne]
    cases hb : data.business_description != "" <;>
    cases hp : data.products_services.isEmpty <;>
    cases hi : industriesTruthy data.industries_served <;>
    cases hk : data.key_operational_indicators.isEmpty <;>
      simp [hc, hb, hp, hi, hk, lookupSection_append, lookupSection_cons,
        lookupSection]

/-- Data for the C7 witness: one product without anonymization
triggers and six certifications. -/
def c7WitnessData : CompanyData :=
  { products_services := ["CNC milling"],
    certifications := ["ISO 9001", "AS9100", "ISO 14001", "IATF 16949",
      "ISO 45001", "Extra cert"] }

/-- C7 witness: the amended theorem applied to concrete data; the
untriggered product passes through character for character and the
sixth certification falls to the item cap. -/
theorem c7_witness :
    lookupSection "Products & Services"
      ((generate_slide_1 (fun t _ _ => t) "" c7WitnessData).sections) =
      some ["CNC milling"]
    ∧ lookupSection "Certifications"
      ((generate_slide_1 (fun t _ _ => t) "" c7WitnessData).sections) =
      some ["ISO 9001", "AS9100", "ISO 14001", "IATF 16949", "ISO 45001"] := by
  constructor
  · rw [(c7_never_shorten_amended (fun t _ _ => t) "" c7WitnessData).1
      (by decide)]
    rfl
  · rw [(c7_never_shorten_amended (fun t _ _ => t) "" c7WitnessData).2
      (by decide)]
    rfl

/-!  Dict lemmas for the parse-row specification.  -/

/-- Lookup on a cons cell. -/
theorem dlookup_cons (p : Int × Frac) (ds : FinSeries) (y : Int) :
    dlookup (p :: ds) y = if p.1 == y then some p.2 else dlookup ds y := by
  simp only [dlookup, List.find?]
  split <;> simp_all

/-- Membership on a cons cell. -/
theorem dmem_cons (p : Int × Frac) (ds : FinSeries) (y : Int) :
    dmem (p :: ds) y = (p.1 == y || dmem ds y) := by
  rw [dmem, dlookup_cons]
  split <;> simp_all [dmem]

/-- Lookup through the overwrite pass of dinsert. -/
theorem dlookup_map_replace (d : FinSeries) (k : Int) (v : Frac) (y : Int) :
    dlookup (d.map (fun p => if p.1 == k then (k, v) else p)) y =
      if y = k then (if dmem d k then some v else none) else dlookup d y := by
  induction d with
  | nil => by_cases hyk : y = k <;> simp [dlookup, dmem, hyk]
  | cons p ds ih =>
    rw [List.map_cons, dlookup_cons, dlookup_cons, dmem_cons, ih]
    simp only [beq_iff_eq]
    split_ifs <;> simp_all

/-- Lookup distributes over append, first hit wins. -/
theorem dlookup_append (d e : FinSeries) (y : Int) :
    dlookup (d ++ e) y =
      match dlookup d y with
      | some w => some w
      | none => dlookup e y := by
  induction d with
  | nil => simp [dlookup]
  | cons p ds ih =>
    rw [List.cons_append, dlookup_cons, dlookup_cons]
    split <;> simp [ih]

/-- Dict assignment changes exactly the assigned key. -/
theorem dlookup_dinsert (d : FinSeries) (k : Int) (v : Frac) (y : Int) :
    dlookup (dinsert d k v) y = if y = k then some v else dlookup d y := by
  unfold dinsert
  by_cases hm : dmem d k = true
  · rw [if_pos hm, dlookup_map_replace, hm]
    split <;> simp
  · have hm' : dmem d k = false := by simpa using hm
    rw [if_neg (by simp [hm']), dlookup_append]
    by_cases hyk : y = k
    · subst hyk
      have hnone : dlookup d y = none := by
        rw [dmem] at hm'
        cases hdl : dlookup d y <;> simp_all
      simp [hnone, dlookup_cons]
    · have hky : (k == y) = false := by simp [Ne.symm hyk]
      cases hdl : dlookup d y <;> simp [dlookup_cons, hky, dlookup, hyk]

/-- Lookup after the parse-row fold as a fold over entries. -/
theorem dlookup_foldl_parse (c : Bool) (es : List String) (d : FinSeries)
    (y : Int) :
    dlookup (es.foldl (parse_row_step c) d) y =
      es.foldl (fun acc e =>
        match parse_entry c e with
        | some (k, w) => if y = k then some w else acc
        | none => acc) (dlookup d y) := by
  induction es generalizing d with
  | nil => simp
  | cons e es ih =>
    rw [List.foldl_cons, List.foldl_cons, ih]
    congr 1
    unfold parse_row_step
    cases hp : parse_entry c e with
    | none => rfl
    | some p =>
      rw [dlookup_dinsert]

/-- A value produced by the entry fold comes from the accumulator or
from one of the entries. -/
theorem foldl_acc_some (c : Bool) (es : List String) (y : Int) :
    ∀ (acc : Option Frac) (v : Frac),
      es.foldl (fun acc e =>
        match parse_entry c e with
        | some (k, w) => if y = k then some w else acc
        | none => acc) acc = some v →
      acc = some v ∨ ∃ e ∈ es, parse_entry c e = some (y, v) := by
  induction es with
  | nil => intro acc v h; exact Or.inl h
  | cons e es ih =>
    intro acc v h
    rw [List.foldl_cons] at h
    rcases ih _ v h with h1 | ⟨e', he', hp⟩
    · cases hp : parse_entry c e with
      | none => simp only [hp] at h1; exact Or.inl h1
      | some p =>
        simp only [hp] at h1
        by_cases hyk : y = p.1
        · rw [if_pos hyk] at h1
          right
          refine ⟨e, List.mem_cons_self e es, ?_⟩
          rw [hp]
          cases h1
          subst hyk
          rfl
        · rw [if_neg hyk] at h1
          exact Or.inl h1
    · exact Or.inr ⟨e', List.mem_cons_of_mem e he', hp⟩

/-- The entry fold yields a value at a year exactly when the
accumulator has one or some entry parses at that year. -/
theorem foldl_acc_isSome (c : Bool) (es : List String) (y : Int) :
    ∀ (acc : Option Frac),
      (es.foldl (fun acc e =>
        match parse_entry c e with
        | some (k, w) => if y = k then some w else acc
        | none => acc) acc).isSome = true ↔
      acc.isSome = true ∨ ∃ e ∈ es, ∃ v, parse_entry c e = some (y, v) := by
  induction es with
  | nil => intro acc; simp
  | cons e es ih =>
    intro acc
    rw [List.foldl_cons]
    cases hp : parse_entry c e with
    | none => simp only [hp]; rw [ih]; simp [hp]
    | some p =>
      simp only [hp]
      rw [ih]
      by_cases hyk : y = p.1
      · subst hyk
        simp only [if_pos rfl, Option.isSome_some]
        constructor
        · intro h
          rcases h with h | h
          · exact Or.inr ⟨e, List.mem_cons_self e es, p.2, by rw [hp]⟩
          · rcases h with ⟨e', he', v, hv⟩
            exact Or.inr ⟨e', List.mem_cons_of_mem e he', v, hv⟩
        · intro h
          rcases h with h | ⟨e', he', v, hv⟩
          · exact Or.inl rfl
          · rcases List.mem_cons.mp he' with rfl | he''
            · exact Or.inl rfl
            · exact Or.inr ⟨e', he'', v, hv⟩
      · rw [if_neg hyk]
        constructor
        · intro h
          rcases h with h | ⟨e', he', v, hv⟩
          · exact Or.inl h
          · exact Or.inr ⟨e', List.mem_cons_of_mem e he', v, hv⟩
        · intro h
          rcases h with h | ⟨e', he', v, hv⟩
          · exact Or.inl h
          · rcases List.mem_cons.mp he' with rfl | he''
            · rw [hv] at hp
              cases hp
              exact absurd rfl hyk
            · exact Or.inr ⟨e', he'', v, hv⟩

/-- C8.  Financial-row parsing splits the row on pipes and keeps
exactly the entries that parse as an integer year, a colon and a float
value that is neither empty nor the word none; a malformed entry is
skipped without aborting the rest of the row; and with monetary
conversion on, a parsed value strictly above 100 is divided by 100
while any other value is stored unchanged. -/
theorem c8_parse_row_spec (row : String) (c : Bool) :
    (∀ y : Int, dmem (parse_financial_row row c) y = true ↔
      ∃ entry ∈ splitOnChar '|' row, ∃ v, parse_entry c entry = some (y, v))
    ∧ (∀ (y : Int) (v : Frac), dlookup (parse_financial_row row c) y = some v →
      ∃ entry ∈ splitOnChar '|' row, parse_entry c entry = some (y, v))
    ∧ (∀ entry, parse_entry true entry =
      (parse_entry false entry).map (fun p =>
        (p.1, if Frac.lt (Frac.ofInt 100) p.2 then
          Frac.div p.2 (Frac.ofInt 100) else p.2))) := by
  refine ⟨?_, ?_, ?_⟩
  · intro y
    rw [dmem, parse_financial_row, dlookup_foldl_parse,
      foldl_acc_isSome c (splitOnChar '|' row) y (dlookup [] y)]
    simp [dlookup]
  · intro y v h
    rw [parse_financial_row, dlookup_foldl_parse] at h
    rcases foldl_acc_some c _ y _ v h with h1 | h2
    · simp [dlookup] at h1
    · exact h2
  · intro entry
    unfold parse_entry
    dsimp only
    repeat' (split <;> try simp)

/-- C8 witness: the specification theorem applied to a concrete row
with one convertible entry, one malformed entry and one none entry. -/
theorem c8_witness :
    dmem (parse_financial_row "2014: 250 | junk | 2016: none" true) 2014 = true
    ∧ ∃ entry ∈ splitOnChar '|' "2014: 250 | junk | 2016: none",
        parse_entry true entry =
          some (2014, Frac.div (Frac.ofInt 250) (Frac.ofInt 100)) := by
  constructor
  · exact ((c8_parse_row_spec "2014: 250 | junk | 2016: none" true).1 2014).mpr
      ⟨"2014: 250 ", by decide,
        Frac.div (Frac.ofInt 250) (Frac.ofInt 100), by rfl⟩
  · exact (c8_parse_row_spec "2014: 250 | junk | 2016: none" true).2.1 2014
      (Frac.div (Frac.ofInt 250) (Frac.ofInt 100)) (by rfl)

/-!  Argmax lemmas for the keyword classifier.  -/

/-- The running best of the max fold is one of the candidates. -/
theorem best_foldl_mem (x : String × Nat) (xs : List (String × Nat)) :
    xs.foldl (fun b y => if b.2 < y.2 then y else b) x ∈ x :: xs := by
  induction xs generalizing x with
  | nil => simp
  | cons z zs ih =>
    rw [List.foldl_cons]
    rcases List.mem_cons.mp (ih (if x.2 < z.2 then z else x)) with h1 | h1
    · rw [h1]
      by_cases hc : x.2 < z.2 <;> simp [hc]
    · exact List.mem_cons_of_mem _ (List.mem_cons_of_mem _ h1)

/-- The max fold dominates every candidate score. -/
theorem best_foldl_ge (x : String × Nat) (xs : List (String × Nat)) :
    ∀ p ∈ x :: xs,
      p.2 ≤ (xs.foldl (fun b y => if b.2 < y.2 then y else b) x).2 := by
  induction xs generalizing x with
  | nil => intro p hp; rcases List.mem_cons.mp hp with rfl | h <;> simp_all
  | cons z zs ih =>
    intro p hp
    rw [List.foldl_cons]
    have hx : x.2 ≤ (if x.2 < z.2 then z else x).2 := by
      by_cases hc : x.2 < z.2 <;> simp [hc] <;> omega
    have hz : z.2 ≤ (if x.2 < z.2 then z else x).2 := by
      by_cases hc : x.2 < z.2 <;> simp [hc] <;> omega
    rcases List.mem_cons.mp hp with rfl | hp1
    · exact le_trans hx (ih _ _ (List.mem_cons_self _ _))
    · rcases List.mem_cons.mp hp1 with rfl | hp2
      · exact le_trans hz (ih _ _ (List.mem_cons_self _ _))
      · exact ih _ _ (List.mem_cons_of_mem _ hp2)

/-- Python max over a nonempty score list: a member that dominates. -/
theorem best_domain_spec (l : List (String × Nat)) (hne : l ≠ []) :
    best_domain l ∈ l ∧ ∀ p ∈ l, p.2 ≤ (best_domain l).2 := by
  cases l with
  | nil => exact absurd rfl hne
  | cons x xs => exact ⟨best_foldl_mem x xs, best_foldl_ge x xs⟩

/-- The 0.9 cap of the confidence rule is tight. -/
theorem frac_min_cap (z : Frac) :
    Frac.lt ⟨9, 10⟩ (Frac.min ⟨9, 10⟩ z) = false := by
  unfold Frac.min
  split
  · next h =>
    unfold Frac.lt at h ⊢
    simp only [decide_eq_true_eq] at h ⊢
    simp at h ⊢
    omega
  · unfold Frac.lt
    simp

/-- The confidence rule never exceeds 0.9. -/
theorem keyword_confidence_cap (b t : Nat) :
    Frac.lt ⟨9, 10⟩ (keyword_confidence b t) = false := by
  unfold keyword_confidence
  split
  · exact frac_min_cap _
  · rfl

/-- C9.  The keyword fallback always returns a key of the fixed
eight-entry table (never null); the returned key scores at least as
high as every domain of the table; the confidence follows the rule
min(0.9, best/total + 0.3) with floor 0.5 when no keyword matches; and
so the confidence never exceeds 0.9. -/
theorem c9_keyword_fallback (text : String) :
    (classify_with_keywords text).1 ∈ DOMAIN_KEYWORDS.map (fun d => d.1)
    ∧ (∀ d ∈ DOMAIN_KEYWORDS,
        domain_score (lowerStr text).toList d.2.2 ≤
          (best_domain ((keyword_scores text).map (fun d => (d.1, d.2.1)))).2)
    ∧ (classify_with_keywords text).2.1 =
        keyword_confidence
          (best_domain ((keyword_scores text).map (fun d => (d.1, d.2.1)))).2
          (((keyword_scores text).map (fun d => d.2.1)).sum)
    ∧ Frac.lt ⟨9, 10⟩ (classify_with_keywords text).2.1 = false := by
  have hlen : ((keyword_scores text).map (fun d => (d.1, d.2.1))).length =
      DOMAIN_KEYWORDS.length := by
    rw [List.length_map, keyword_scores, List.length_map]
  have hne : ((keyword_scores text).map (fun d => (d.1, d.2.1))) ≠ [] := by
    intro hc
    rw [hc] at hlen
    exact absurd hlen.symm (by decide)
  have hmm : (keyword_scores text).map (fun d => (d.1, d.2.1)) =
      DOMAIN_KEYWORDS.map
        (fun d => (d.1, domain_score (lowerStr text).toList d.2.2)) := by
    rw [keyword_scores, List.map_map]
    rfl
  obtain ⟨hbmem, hbge⟩ :=
    best_domain_spec ((keyword_scores text).map (fun d => (d.1, d.2.1))) hne
  refine ⟨?_, ?_, ?_, ?_⟩
  · rw [hmm] at hbmem
    rcases List.mem_map.mp hbmem with ⟨d, hd, hdq⟩
    have h1 : (classify_with_keywords text).1 =
        (best_domain ((keyword_scores text).map (fun d => (d.1, d.2.1)))).1 := by
      simp only [classify_with_keywords]
    rw [h1, hmm, ← hdq]
    exact List.mem_map_of_mem (fun d => d.1) hd
  · intro d hd
    have hmem2 : ((fun d =>
        (d.1, domain_score (lowerStr text).toList d.2.2)) d) ∈
        DOMAIN_KEYWORDS.map
          (fun d => (d.1, domain_score (lowerStr text).toList d.2.2)) :=
      List.mem_map_of_mem _ hd
    rw [← hmm] at hmem2
    exact hbge _ hmem2
  · simp only [classify_with_keywords]
  · have h2 : (classify_with_keywords text).2.1 =
        keyword_confidence
          (best_domain ((keyword_scores text).map (fun d => (d.1, d.2.1)))).2
          (((keyword_scores text).map (fun d => d.2.1)).sum) := by
      simp only [classify_with_keywords]
    rw [h2]
    exact keyword_confidence_cap _ _

/-- C9 witness: the fallback theorem applied to a concrete text, with
the domination conjunct discharged at the first table entry. -/
theorem c9_witness :
    (classify_with_keywords "software and cloud platform").1 ∈
      DOMAIN_KEYWORDS.map (fun d => d.1)
    ∧ domain_score (lowerStr "software and cloud platform").toList
        (DOMAIN_KEYWORDS.headD ("", "", [])).2.2 ≤
      (best_domain ((keyword_scores "software and cloud platform").map
        (fun d => (d.1, d.2.1)))).2 :=
  ⟨(c9_keyword_fallback "software and cloud platform").1,
    (c9_keyword_fallback "software and cloud platform").2.1
      (DOMAIN_KEYWORDS.headD ("", "", [])) (by decide)⟩

/-- The CAGR block reads only the revenue series of the state. -/
theorem cagr_check_congr (st st' : VerifierState)
    (hr : st'.revenue = st.revenue) (slide_num : Int) (claim : String) :
    cagr_check st' slide_num claim = cagr_check st slide_num claim := by
  unfold cagr_check
  rw [hr]

/-- The Margin block reads only the two financial series. -/
theorem margin_check_congr (st st' : VerifierState)
    (hr : st'.revenue = st.revenue) (he : st'.ebitda = st.ebitda)
    (slide_num : Int) (claim : String) :
    margin_check st' slide_num claim = margin_check st slide_num claim := by
  unfold margin_check
  rw [hr, he]

/-- The FY block reads only the two financial series. -/
theorem fy_check_congr (st st' : VerifierState)
    (hr : st'.revenue = st.revenue) (he : st'.ebitda = st.ebitda)
    (slide_num : Int) (claim : String) :
    fy_check st' slide_num claim = fy_check st slide_num claim := by
  unfold fy_check
  rw [hr, he]

/-- The calculated branch never consults the one-pager lines, the
flattened fields or the web data. -/
theorem verify_calculated_congr (st st' : VerifierState)
    (hr : st'.revenue = st.revenue) (he : st'.ebitda = st.ebitda)
    (slide_num : Int) (claim : String) :
    verify_calculated st' slide_num claim =
      verify_calculated st slide_num claim := by
  unfold verify_calculated
  rw [cagr_check_congr st st' hr, margin_check_congr st st' hr he,
    fy_check_congr st st' hr he]

/-- The web branch reads only the web data of the state. -/
theorem verify_web_data_congr (st st' : VerifierState)
    (hw : st'.web = st.web) (slide_num : Int) (claim : String) :
    verify_web_data st' slide_num claim = verify_web_data st slide_num claim := by
  unfold verify_web_data
  rw [hw]

/-- C10 amended.  Dispatch is exclusive and non-backtracking: a claim
matching a calculated pattern, or failing that a web pattern, is never
compared against the one-pager lines or the flattened extracted
fields (the result is invariant under changing them); and with both
financial series empty, a claim containing Margin or CAGR either
raises on a malformed FY amount or comes back with verified false -
never verified - even if its text sits verbatim in the one-pager. -/
theorem c10_exclusive_dispatch (st : VerifierState) (L : List String)
    (F : List (String × String)) (slide_num : Int) (claim : String) :
    (is_calculated_claim claim = true →
      verify_claim { st with md_lines := L, extracted_fields := F }
        slide_num claim = verify_claim st slide_num claim)
    ∧ (is_calculated_claim claim = false → is_web_claim claim = true →
      verify_claim { st with md_lines := L, extracted_fields := F }
        slide_num claim = verify_claim st slide_num claim)
    ∧ (st.revenue = [] → st.ebitda = [] →
      (containsCI claim "Margin" || containsCI claim "CAGR") = true →
      ∀ c : Citation, verify_claim st slide_num claim = .ok c →
        c.verified = false) := by
  refine ⟨?_, ?_, ?_⟩
  · intro hcalc
    unfold verify_claim
    by_cases hshort : (pyStrip claim).length < 3
    · rw [if_pos hshort, if_pos hshort]
    · rw [if_neg hshort, if_neg hshort, if_pos hcalc, if_pos hcalc]
      exact verify_calculated_congr st _ rfl rfl slide_num claim
  · intro hcalc hweb
    unfold verify_claim
    by_cases hshort : (pyStrip claim).length < 3
    · rw [if_pos hshort, if_pos hshort]
    · rw [if_neg hshort, if_neg hshort]
      rw [if_neg (show ¬ (is_calculated_claim claim = true) from by simp [hcalc])]
      rw [if_neg (show ¬ (is_calculated_claim claim = true) from by simp [hcalc])]
      rw [if_pos hweb, if_pos hweb]
      exact congrArg Except.ok (verify_web_data_congr st _ rfl slide_num claim)
  · intro hrev heb hcm c h
    have hcm2 : containsCI claim "Margin" = true ∨
        containsCI claim "CAGR" = true := by simpa using hcm
    have hcalc : is_calculated_claim claim = true := by
      have hgoal : (subOccurs "cagr".toList (lowerStr claim).toList ||
          subOccurs "margin".toList (lowerStr claim).toList ||
          searchPctCagr (lowerStr claim).toList ||
          subOccurs "revenue cagr".toList (lowerStr claim).toList ||
          subOccurs "ebitda margin".toList (lowerStr claim).toList) = true := by
        rcases hcm2 with hM | hC
        · have hM' : subOccurs "margin".toList (lowerStr claim).toList = true := hM
          rw [hM']
          simp
        · have hC' : subOccurs "cagr".toList (lowerStr claim).toList = true := hC
          rw [hC']
          simp
      exact hgoal
    unfold verify_claim at h
    by_cases hshort : (pyStrip claim).length < 3
    · rw [if_pos hshort] at h
      cases h
      rfl
    · rw [if_neg hshort, if_pos hcalc] at h
      have hcagr : cagr_check st slide_num claim = none := by
        unfold cagr_check
        rw [hrev]
        simp
      have hmargin : margin_check st slide_num claim = none := by
        unfold margin_check
        rw [heb]
        simp
      have hfy : fy_check st slide_num claim = .error () ∨
          fy_check st slide_num claim = .ok none := by
        unfold fy_check
        rw [hrev, heb]
        cases hs : searchFY claim.toList with
        | none => right; rfl
        | some p =>
          obtain ⟨yd, amt⟩ := p
          cases hp : pyFloat (String.mk amt) with
          | none => left; simp [hp]
          | some v =>
            right
            simp [hp, dmem, dlookup]
      unfold verify_calculated at h
      rw [hcagr, hmargin] at h
      rcases hfy with hfy | hfy <;> rw [hfy] at h
      · cases h
      · cases h
        rfl

/-- State for the C10 witness: a one-pager line only. -/
def c10WitnessState : VerifierState := { md_lines := ["Revenue CAGR: 12%"] }

/-- The unverified Citation the C10 witness obtains. -/
def c10WitnessCit : Citation :=
  { slide_num := 3, claim := "Margin of safety", verified := false,
    source_type := "unverified",
    source_reference := "Calculated value not verified" }

/-- C10 witness: the dispatch theorem applied at concrete inputs, both
for the state-independence conjunct and for the empty-financials
conjunct. -/
theorem c10_witness :
    verify_claim
      { c10WitnessState with
        md_lines := ["other line"]
        extracted_fields := [("field", "value")] } 3 "Revenue CAGR: 12%"
      = verify_claim c10WitnessState 3 "Revenue CAGR: 12%"
    ∧ c10WitnessCit.verified = false :=
  ⟨(c10_exclusive_dispatch c10WitnessState ["other line"] [("field", "value")]
      3 "Revenue CAGR: 12%").1 (by rfl),
    (c10_exclusive_dispatch c10WitnessState [] [] 3 "Margin of safety").2.2
      rfl rfl (by rfl) c10WitnessCit (by rfl)⟩

/-- A string with a nonempty left part is nonempty. -/
theorem str_append_ne (a b : String) (h : a ≠ "") : a ++ b ≠ "" := by
  cases a with
  | mk la =>
    cases b with
    | mk lb =>
      intro hc
      apply h
      have hdata : la ++ lb = [] := congrArg String.data hc
      have hla : la = [] := by
        cases la with
        | nil => rfl
        | cons x xs => simp at hdata
      rw [hla]

/-- The per-citation invariant of C6: the claim is preserved character
for character, the reference is nonempty, and verified is equivalent
to the source type being one of the three positive kinds, respectively
to not being the unverified kind. -/
def CitOK (claim : String) (c : Citation) : Prop :=
  c.claim = claim ∧ c.source_reference ≠ "" ∧
    (c.verified = true ↔
      (c.source_type = "onepager" ∨ c.source_type = "calculated" ∨
        c.source_type = "web")) ∧
    (c.verified = false ↔ c.source_type = "unverified")

/-- A verified citation of a positive kind satisfies the invariant. -/
theorem citok_verified (claim ref : String) (sn : Int) (ty : String)
    (hty : ty = "onepager" ∨ ty = "calculated" ∨ ty = "web")
    (href : ref ≠ "") (ln : Option Nat) (lc : Option String) :
    CitOK claim ⟨sn, claim, true, ty, ref, ln, lc⟩ := by
  refine ⟨rfl, href, ?_, ?_⟩ <;>
    rcases hty with h | h | h <;> subst h <;> simp

/-- An unverified citation satisfies the invariant. -/
theorem citok_unverified (claim ref : String) (sn : Int) (href : ref ≠ "")
    (ln : Option Nat) (lc : Option String) :
    CitOK claim ⟨sn, claim, false, "unverified", ref, ln, lc⟩ := by
  refine ⟨rfl, href, ?_, ?_⟩ <;> simp

/-- The extracted-fields fallback satisfies the invariant. -/
theorem citok_fields (st : VerifierState) (sn : Int) (claim : String)
    (cc : List Char) : CitOK claim (onepager_fields st sn claim cc) := by
  unfold onepager_fields
  cases h : st.extracted_fields.find? (fun p =>
      let cf := (clean_for_matching p.2).toList
      subOccurs cc cf || subOccurs cf cc) with
  | none => exact citok_unverified _ _ _ (by decide) _ _
  | some p =>
    exact citok_verified _ _ _ _ (Or.inl rfl)
      (str_append_ne "Field: " _ (by decide)) _ _

/-- The one-pager branch satisfies the invariant. -/
theorem citok_onepager (st : VerifierState) (sn : Int) (claim : String) :
    CitOK claim (verify_onepager st sn claim) := by
  unfold verify_onepager
  dsimp only
  split
  · split
    · exact citok_verified _ _ _ _ (Or.inl rfl)
        (str_append_ne _ _ (str_append_ne _ _
          (str_append_ne "Line " _ (by decide)))) _ _
    · exact citok_fields _ _ _ _
  · exact citok_fields _ _ _ _

/-- The market-size block satisfies the invariant. -/
theorem citok_web_market (md : MarketData) (sn : Int) (claim : String)
    (c : Citation) (h : web_market_size_check md sn claim = some c) :
    CitOK claim c := by
  unfold web_market_size_check at h
  split at h
  · split at h
    · cases h
      exact citok_verified _ _ _ _ (Or.inr (Or.inr rfl))
        (str_append_ne "Data: India market size = " _ (by decide)) _ _
    · cases h
  · cases h

/-- The growth block satisfies the invariant. -/
theorem citok_web_growth (md : MarketData) (sn : Int) (claim : String)
    (c : Citation) (h : web_growth_check md sn claim = some c) :
    CitOK claim c := by
  unfold web_growth_check at h
  split at h
  · split at h
    · cases h
      exact citok_verified _ _ _ _ (Or.inr (Or.inr rfl))
        (str_append_ne "Data: Industry CAGR = " _ (by decide)) _ _
    · cases h
  · cases h

/-- The drivers block satisfies the invariant. -/
theorem citok_web_drivers (md : MarketData) (sn : Int) (claim : String)
    (c : Citation) (h : web_drivers_check md sn claim = some c) :
    CitOK claim c := by
  unfold web_drivers_check at h
  split at h
  · split at h
    · cases h
    · cases h
      exact citok_verified _ _ _ _ (Or.inr (Or.inr rfl))
        (str_append_ne "Industry drivers: " _ (by decide)) _ _
  · cases h

/-- The company-pages block satisfies the invariant. -/
theorem citok_web_company (pages : List (String × PageData)) (sn : Int)
    (claim : String) (c : Citation)
    (h : web_company_check pages sn claim = some c) : CitOK claim c := by
  unfold web_company_check at h
  dsimp only at h
  split at h
  · cases h
    exact citok_verified _ _ _ _ (Or.inr (Or.inr rfl))
      (str_append_ne "Source: Company Website - " _ (by decide)) _ _
  · cases h

/-- The web branch satisfies the invariant. -/
theorem citok_web (st : VerifierState) (sn : Int) (claim : String) :
    CitOK claim (verify_web_data st sn claim) := by
  unfold verify_web_data
  dsimp only
  split
  · next c hc =>
    cases hmd : st.web.market_data with
    | none =>
      simp only [hmd] at hc
      cases hc
    | some md =>
      simp only [hmd] at hc
      cases h1 : web_market_size_check md sn claim with
      | some c1 =>
        simp only [h1] at hc
        cases hc
        exact citok_web_market md sn claim _ h1
      | none =>
        simp only [h1] at hc
        cases h2 : web_growth_check md sn claim with
        | some c2 =>
          simp only [h2] at hc
          cases hc
          exact citok_web_growth md sn claim _ h2
        | none =>
          simp only [h2] at hc
          exact citok_web_drivers md sn claim _ hc
  · split
    · next c hc => exact citok_web_company _ _ _ _ hc
    · exact citok_unverified _ _ _ (by decide) _ _

/-- The CAGR block satisfies the invariant. -/
theorem citok_cagr (st : VerifierState) (sn : Int) (claim : String)
    (c : Citation) (h : cagr_check st sn claim = some c) : CitOK claim c := by
  unfold cagr_check at h
  dsimp only at h
  split at h
  · split at h
    · split at h
      · cases h
        unfold cagr_citation
        dsimp only
        refine citok_verified _ _ _ _ (Or.inr (Or.inl rfl)) ?_ _ _
        repeat' apply str_append_ne
        decide
      · cases h
    · cases h
  · cases h

/-- The Margin block satisfies the invariant. -/
theorem citok_margin (st : VerifierState) (sn : Int) (claim : String)
    (c : Citation) (h : margin_check st sn claim = some c) : CitOK claim c := by
  unfold margin_check at h
  dsimp only at h
  split at h
  · split at h
    · split at h
      · split at h
        · cases h
          unfold margin_citation
          dsimp only
          refine citok_verified _ _ _ _ (Or.inr (Or.inl rfl)) ?_ _ _
          repeat' apply str_append_ne
          decide
        · cases h
      · cases h
    · cases h
  · cases h

/-- The FY block satisfies the invariant. -/
theorem citok_fy (st : VerifierState) (sn : Int) (claim : String)
    (c : Citation) (h : fy_check st sn claim = .ok (some c)) : CitOK claim c := by
  unfold fy_check at h
  dsimp only at h
  split at h
  · exact Option.noConfusion (Except.ok.inj h)
  · split at h
    · exact Except.noConfusion h
    · split at h
      · split at h
        · cases h
          refine citok_verified _ _ _ _ (Or.inl rfl) ?_ _ _
          repeat' apply str_append_ne
          decide
        · split at h
          · cases h
            refine citok_verified _ _ _ _ (Or.inl rfl) ?_ _ _
            repeat' apply str_append_ne
            decide
          · exact Option.noConfusion (Except.ok.inj h)
      · split at h
        · cases h
          refine citok_verified _ _ _ _ (Or.inl rfl) ?_ _ _
          repeat' apply str_append_ne
          decide
        · split at h
          · cases h
            refine citok_verified _ _ _ _ (Or.inl rfl) ?_ _ _
            repeat' apply str_append_ne
            decide
          · exact Option.noConfusion (Except.ok.inj h)

/-- The calculated branch satisfies the invariant on a normal return. -/
theorem citok_calculated (st : VerifierState) (sn : Int) (claim : String)
    (c : Citation) (h : verify_calculated st sn claim = .ok c) :
    CitOK claim c := by
  unfold verify_calculated at h
  cases h1 : cagr_check st sn claim with
  | some c1 =>
    simp only [h1] at h
    cases h
    exact citok_cagr _ _ _ _ h1
  | none =>
    simp only [h1] at h
    cases h2 : margin_check st sn claim with
    | some c2 =>
      simp only [h2] at h
      cases h
      exact citok_margin _ _ _ _ h2
    | none =>
      simp only [h2] at h
      cases h3 : fy_check st sn claim with
      | error e =>
        simp only [h3] at h
        cases h
      | ok o =>
        cases o with
        | none =>
          simp only [h3] at h
          cases h
          exact citok_unverified _ _ _ (by decide) _ _
        | some c3 =>
          simp only [h3] at h
          cases h
          exact citok_fy _ _ _ _ h3

/-- C6 amended.  Every call of the per-claim verification function
that returns normally (the FY amount parse can instead raise, see the
counterexample) returns exactly one Citation whose claim field equals
the input text character for character, whose source_reference is
nonempty, and whose verified flag is true exactly when source_type is
onepager, calculated or web, false exactly when it is unverified. -/
theorem c6_citation_invariants (st : VerifierState) (slide_num : Int)
    (claim : String) (c : Citation)
    (h : verify_claim st slide_num claim = .ok c) :
    c.claim = claim ∧ c.source_reference ≠ "" ∧
      (c.verified = true ↔
        (c.source_type = "onepager" ∨ c.source_type = "calculated" ∨
          c.source_type = "web")) ∧
      (c.verified = false ↔ c.source_type = "unverified") := by
  have hck : CitOK claim c := by
    unfold verify_claim at h
    split at h
    · cases h
      exact citok_unverified _ _ _ (by decide) _ _
    · split at h
      · exact citok_calculated _ _ _ _ h
      · split at h
        · cases h
          exact citok_web _ _ _
        · cases h
          exact citok_onepager _ _ _
  exact hck

/-- The Citation the C6 witness obtains. -/
def c6WitnessCit : Citation :=
  { slide_num := 1, claim := "hello world claim", verified := false,
    source_type := "unverified",
    source_reference := "No matching source found in one-pager" }

/-- C6 witness: the invariants theorem applied to a concrete call. -/
theorem c6_witness :
    c6WitnessCit.claim = "hello world claim"
    ∧ c6WitnessCit.source_reference ≠ ""
    ∧ (c6WitnessCit.verified = true ↔
        (c6WitnessCit.source_type = "onepager" ∨
          c6WitnessCit.source_type = "calculated" ∨
          c6WitnessCit.source_type = "web"))
    ∧ (c6WitnessCit.verified = false ↔
        c6WitnessCit.source_type = "unverified") :=
  c6_citation_invariants {} 1 "hello world claim" c6WitnessCit (by rfl)

theorem foldl_filter_aux (f : String → Bool) (L : List (String × List String)) :
    ∀ acc : List (String × List String),
      L.foldl (fun acc p =>
        let vi := p.2.filter f
        if vi.isEmpty then acc else acc ++ [(p.1, vi)]) acc =
      acc ++ L.filterMap (fun p =>
        let vi := p.2.filter f
        if vi.isEmpty then none else some (p.1, vi)) := by
  induction L with
  | nil => intro acc; simp
  | cons p ps ih =>
    intro acc
    rw [List.foldl_cons, List.filterMap_cons]
    dsimp only
    cases hv : (p.2.filter f).isEmpty with
    | true =>
      rw [if_pos rfl, if_pos rfl, ih]
    | false =>
      rw [if_neg Bool.false_ne_true, if_neg Bool.false_ne_true, ih]
      simp

theorem filter_slide_sections (citations : List Citation)
    (slide : SlideContent) :
    (filter_slide citations slide).sections =
      slide.sections.filterMap (fun p =>
        let vi := p.2.filter (item_is_verified citations)
        if vi.isEmpty then none else some (p.1, vi)) := by
  unfold filter_slide
  dsimp only
  rw [foldl_filter_aux]
  simp

theorem item_is_verified_iff (citations : List Citation) (item : String) :
    item_is_verified citations item = true ↔
      ∃ c ∈ citations, c.verified = true ∧
        (c.claim = item ∨ containsSub c.claim item = true ∨
          containsSub item c.claim = true) := by
  unfold item_is_verified
  rw [List.any_eq_true]
  simp [Bool.and_eq_true, Bool.or_eq_true, beq_iff_eq, or_assoc]

theorem assoc_nodup_eq {L : List (String × List String)}
    (hnd : (L.map Prod.fst).Nodup) {n : String} {a b : List String}
    (ha : (n, a) ∈ L) (hb : (n, b) ∈ L) : a = b := by
  induction L with
  | nil => cases ha
  | cons q qs ih =>
    rw [List.map_cons, List.nodup_cons] at hnd
    rcases List.mem_cons.mp ha with hqa | ha'
    · rcases List.mem_cons.mp hb with hqb | hb'
      · rw [← hqa] at hqb
        exact (Prod.mk.injEq _ _ _ _ |>.mp hqb.symm).2
      · exfalso
        apply hnd.1
        rw [← hqa]
        simpa using List.mem_map_of_mem Prod.fst hb'
    · rcases List.mem_cons.mp hb with hqb | hb'
      · exfalso
        apply hnd.1
        rw [← hqb]
        simpa using List.mem_map_of_mem Prod.fst ha'
      · exact ih hnd.2 ha' hb'

theorem filter_slide_hooks (citations : List Citation) (slide : SlideContent) :
    (filter_slide citations slide).hooks =
      (let verified_hooks :=
        match slide.hooks with
        | some hs => if hs.isEmpty then [] else hs.filter (item_is_verified citations)
        | none => []
      if verified_hooks.isEmpty then none else some verified_hooks) := rfl

/-- C1: a section item or hook survives _filter_verified iff some
accumulated citation is verified and lexically matches it (equality or
substring containment in either direction); a section all of whose
items are dropped is absent from the filtered sections; the filtered
slide is the slide's image in the output list. -/
theorem c1_filter_verified_iff (citations : List Citation)
    (slides : List SlideContent) (slide : SlideContent)
    (hs : slide ∈ slides)
    (hnd : (slide.sections.map Prod.fst).Nodup) :
    filter_slide citations slide ∈ filter_verified citations slides
    ∧ (∀ name items item, (name, items) ∈ slide.sections →
        ((∃ vitems, (name, vitems) ∈ (filter_slide citations slide).sections ∧
            item ∈ vitems) ↔
          (item ∈ items ∧ ∃ c ∈ citations, c.verified = true ∧
            (c.claim = item ∨ containsSub c.claim item = true ∨
              containsSub item c.claim = true))))
    ∧ (∀ name items, (name, items) ∈ slide.sections →
        (∀ item ∈ items, item_is_verified citations item = false) →
        name ∉ (filter_slide citations slide).sections.map Prod.fst)
    ∧ (∀ hook,
        ((∃ vh, (filter_slide citations slide).hooks = some vh ∧ hook ∈ vh) ↔
          (∃ hl, slide.hooks = some hl ∧ hook ∈ hl ∧
            ∃ c ∈ citations, c.verified = true ∧
              (c.claim = hook ∨ containsSub c.claim hook = true ∨
                containsSub hook c.claim = true)))) := by
  refine ⟨List.mem_map_of_mem _ hs, ?_, ?_, ?_⟩
  · intro name items item hin
    rw [filter_slide_sections]
    constructor
    · rintro ⟨vitems, hv, hitem⟩
      rcases List.mem_filterMap.mp hv with ⟨⟨pn, pits⟩, hp, hgp⟩
      dsimp only at hgp
      split at hgp
      · exact Option.noConfusion hgp
      · have h1 := Option.some.inj hgp
        have hname : pn = name := congrArg Prod.fst h1
        have hvit : pits.filter (item_is_verified citations) = vitems :=
          congrArg Prod.snd h1
        subst hname
        have hpe : pits = items := assoc_nodup_eq hnd hp hin
        subst hpe
        rw [← hvit] at hitem
        have hm := List.mem_filter.mp hitem
        exact ⟨hm.1, (item_is_verified_iff citations item).mp hm.2⟩
    · rintro ⟨hitems, hcit⟩
      have hf : item_is_verified citations item = true :=
        (item_is_verified_iff citations item).mpr hcit
      have hmemf : item ∈ items.filter (item_is_verified citations) :=
        List.mem_filter.mpr ⟨hitems, hf⟩
      have hne : items.filter (item_is_verified citations) ≠ [] :=
        List.ne_nil_of_mem hmemf
      refine ⟨List.filter (item_is_verified citations) items,
        List.mem_filterMap.mpr ⟨(name, items), hin, ?_⟩, hmemf⟩
      dsimp only
      rw [if_neg (by simpa [List.isEmpty_iff] using hne)]
  · intro name items hin hall hmem
    rw [filter_slide_sections] at hmem
    rcases List.mem_map.mp hmem with ⟨q, hq, hq1⟩
    rcases List.mem_filterMap.mp hq with ⟨⟨pn, pits⟩, hp, hgp⟩
    dsimp only at hgp
    split at hgp
    · exact Option.noConfusion hgp
    · rename_i hne
      have h1 := Option.some.inj hgp
      have hname : pn = name := by
        rw [← hq1, ← h1]
      subst hname
      have hpe : pits = items := assoc_nodup_eq hnd hp hin
      apply hne
      have hfe : pits.filter (item_is_verified citations) = [] := by
        rw [hpe, List.filter_eq_nil_iff]
        intro a ha
        simp [hall a ha]
      simp [hfe]
  · intro hook
    rw [filter_slide_hooks]
    cases hh : slide.hooks with
    | none => simp
    | some hl =>
      dsimp only
      cases hhe : hl.isEmpty with
      | true =>
        have : hl = [] := by simpa [List.isEmpty_iff] using hhe
        subst this
        simp
      | false =>
        rw [if_neg Bool.false_ne_true]
        constructor
        · rintro ⟨vh, hvh, hmem⟩
          split at hvh
          · exact Option.noConfusion hvh
          · have := Option.some.inj hvh
            subst this
            have hm := List.mem_filter.mp hmem
            exact ⟨hl, rfl, hm.1,
              (item_is_verified_iff citations hook).mp hm.2⟩
        · rintro ⟨hl2, heq, hmem, hcit⟩
          have h2 : hl = hl2 := Option.some.inj heq
          subst h2
          have hf : item_is_verified citations hook = true :=
            (item_is_verified_iff citations hook).mpr hcit
          have hmemf : hook ∈ hl.filter (item_is_verified citations) :=
            List.mem_filter.mpr ⟨hmem, hf⟩
          have hne : hl.filter (item_is_verified citations) ≠ [] :=
            List.ne_nil_of_mem hmemf
          exact ⟨List.filter (item_is_verified citations) hl,
            by rw [if_neg (by simpa [List.isEmpty_iff] using hne)], hmemf⟩

/-- The single verified citation of the C1 witness scenario. -/
def c1Cit : Citation :=
  { slide_num := 1, claim := "alpha beta", verified := true,
    source_type := "onepager", source_reference := "Line 1: alpha beta" }

/-- The slide of the C1 witness scenario. -/
def c1Slide : SlideContent :=
  { title := "t", sections := [("S", ["alpha beta gamma", "zzz"])],
    metrics := [], hooks := some ["alpha beta hook"] }

/-- C1 witness: on a concrete slide and citation list, the item that
contains the verified claim survives filtering. -/
theorem c1_witness :
    c1Slide ∈ [c1Slide]
    ∧ (c1Slide.sections.map Prod.fst).Nodup
    ∧ (∃ vitems, ("S", vitems) ∈ (filter_slide [c1Cit] c1Slide).sections ∧
        "alpha beta gamma" ∈ vitems) :=
  ⟨List.mem_singleton.mpr rfl, by decide,
    ((c1_filter_verified_iff [c1Cit] [c1Slide] c1Slide
        (List.mem_singleton.mpr rfl) (by decide)).2.1
      "S" ["alpha beta gamma", "zzz"] "alpha beta gamma" (by decide)).mpr
      ⟨by decide, ⟨c1Cit, by decide, by decide, Or.inr (Or.inr (by decide))⟩⟩⟩

/-- The verifier state of the C4 scenario: the revenue series of the
sources, all other inputs empty. -/
def c4St : VerifierState :=
  { revenue := [(2020, Frac.ofInt 100), (2021, Frac.ofInt 120),
      (2022, Frac.ofInt 145), (2023, Frac.ofInt 175), (2024, Frac.ofInt 210)] }

theorem c4_value_eq :
    cagr_value (Frac.ofInt 100) (Frac.ofInt 210) ((2024 : Int) - 2020) =
      ((21 / 10 : ℝ) ^ ((1 : ℝ) / 4) - 1) * 100 := by
  unfold cagr_value Frac.toReal Frac.ofInt
  norm_num

theorem c4_rpow_bounds :
    (2407 / 2000 : ℝ) < (21 / 10 : ℝ) ^ ((1 : ℝ) / 4) ∧
      (21 / 10 : ℝ) ^ ((1 : ℝ) / 4) < (2409 / 2000 : ℝ) := by
  have h0 : (0 : ℝ) ≤ 21 / 10 := by norm_num
  have hc4 : ((21 / 10 : ℝ) ^ ((1 : ℝ) / 4)) ^ (4 : ℕ) = 21 / 10 := by
    rw [← Real.rpow_natCast ((21 / 10 : ℝ) ^ ((1 : ℝ) / 4)) 4, ← Real.rpow_mul h0]
    norm_num
  constructor
  · apply lt_of_pow_lt_pow_left₀ 4 (Real.rpow_nonneg h0 _)
    rw [hc4]; norm_num
  · apply lt_of_pow_lt_pow_left₀ 4 (by norm_num : (0 : ℝ) ≤ 2409 / 2000)
    rw [hc4]; norm_num

theorem c4_fmt :
    fmtR1 (cagr_value (Frac.ofInt 100) (Frac.ofInt 210) ((2024 : Int) - 2020)) =
      "20.4" := by
  rw [c4_value_eq]
  unfold fmtR1 rRound
  have hb := c4_rpow_bounds
  have hfloor :
      ⌊((21 / 10 : ℝ) ^ ((1 : ℝ) / 4) - 1) * 100 * 10 + 1 / 2⌋ = (204 : Int) := by
    rw [Int.floor_eq_iff]
    constructor
    · push_cast
      nlinarith [hb.1]
    · push_cast
      nlinarith [hb.2]
  rw [hfloor]
  rfl

/-- C4: on the spec revenue series, a CAGR claim yields a verified
calculated Citation whose reference carries the formula, the inputs
100.00 and 210.00, the exponent 1/4 and the rounded figure 20.4%; and
whenever the start value is not positive or the year span is not
positive, the CAGR block yields nothing. -/
theorem c4_cagr_spec :
    (verify_claim c4St 1 "Revenue CAGR: 20.4%" =
      .ok { slide_num := 1, claim := "Revenue CAGR: 20.4%", verified := true,
            source_type := "calculated",
            source_reference :=
              "CAGR = ((FY2024_Revenue / FY2020_Revenue)^(1/4) - 1) × 100\n= ((210.00 / 100.00)^(1/4) - 1) × 100\n= 20.4%" })
    ∧ (∀ st : VerifierState, ∀ slide_num : Int, ∀ claim : String,
        ¬(Frac.lt (Frac.ofInt 0) (dgetD st.revenue (cagr_start_yr st.revenue)) = true ∧
            0 < cagr_end_yr st.revenue - cagr_start_yr st.revenue) →
        cagr_check st slide_num claim = none) := by
  constructor
  · rw [show verify_claim c4St 1 "Revenue CAGR: 20.4%" =
        .ok (cagr_citation 1 "Revenue CAGR: 20.4%" 2020 2024
          (Frac.ofInt 100) (Frac.ofInt 210)) from rfl]
    unfold cagr_citation
    dsimp only
    rw [c4_fmt]
    rfl
  · intro st slide_num claim hpre
    unfold cagr_check
    split
    · split
      · dsimp only
        rw [if_neg]
        intro hcond
        rw [Bool.and_eq_true, decide_eq_true_iff] at hcond
        exact hpre hcond
      · rfl
    · rfl

/-- C4 witness: the precondition branch of the theorem at a concrete
empty series (start value 0, span 0), and the concrete conclusion. -/
theorem c4_witness :
    (¬(Frac.lt (Frac.ofInt 0)
          (dgetD ({} : VerifierState).revenue
            (cagr_start_yr ({} : VerifierState).revenue)) = true ∧
        0 < cagr_end_yr ({} : VerifierState).revenue -
          cagr_start_yr ({} : VerifierState).revenue))
    ∧ cagr_check {} 1 "CAGR" = none :=
  ⟨by decide, c4_cagr_spec.2 {} 1 "CAGR" (by decide)⟩
end KelpMA
